import Mathlib

/-!
# SnapTalk backend — shallow embedding

This file embeds the messaging, friendship and profile logic of the
SnapTalk backend (`backend/server.js`, `backend/routes/messages.js`,
`backend/routes/friends.js`, `backend/routes/users.js`) in Lean and
proves/refutes the specification claims about it.

Conventions:
* MongoDB ObjectIds are modelled as `Nat`.
* Documents are Lean structures; a collection is a `List` in insertion
  order.
* `Date` values (`createdAt`, `readAt`) are `Nat` timestamps supplied by
  the caller of each operation (`now` parameters).
* A route handler returns `Except (Nat × String) α`: the error case
  carries the HTTP status code and message of the JSON error envelope,
  mirroring the `success:false` responses of the source.
* The two process-local JavaScript `Map`s of `server.js` are association
  lists with unique keys (`Map.set` replaces in place, `Map.delete`
  removes the key, `Map.get` looks the key up).
-/

namespace SnapTalk

/-- A persisted `Message` document (`backend/models/Message`): sender and
receiver references, content, type tag, optional attachment URL, read
flag, read timestamp and creation timestamp. -/
structure Msg where
  id : Nat
  sender : Nat
  receiver : Nat
  content : String
  messageType : String
  fileUrl : String
  isRead : Bool
  readAt : Option Nat
  createdAt : Nat
deriving Repr, DecidableEq

/-- An incoming friend-request entry `{ from, createdAt }` (the `from`
field is renamed `fromId`, `from` being a Lean keyword). -/
structure FromReq where
  fromId : Nat
  createdAt : Nat
deriving Repr, DecidableEq

/-- An outgoing friend-request entry `{ to, createdAt }` (the `to` field
is renamed `toId`, `to` being a reserved token). -/
structure ToReq where
  toId : Nat
  createdAt : Nat
deriving Repr, DecidableEq

/-- A `User` document restricted to the fields the verified routes read
or write. -/
structure User where
  id : Nat
  email : String
  password : String
  friends : List Nat
  friendRequests : List FromReq
  sentFriendRequests : List ToReq
deriving Repr, DecidableEq

/-- The document store: the `users` and `messages` collections plus the
next fresh message id. -/
structure DB where
  users : List User
  messages : List Msg
  nextMsgId : Nat
deriving Repr, DecidableEq

/-- `User.findById`. -/
def findUser (db : DB) (uid : Nat) : Option User :=
  db.users.find? (fun u => u.id == uid)

/-- `Message.findById`. -/
def findMsg (db : DB) (mid : Nat) : Option Msg :=
  db.messages.find? (fun m => m.id == mid)

/-- `User.findByIdAndUpdate`: apply an update to the user document with
the given id. -/
def updateUser (db : DB) (uid : Nat) (f : User → User) : DB :=
  { db with users := db.users.map (fun u => if u.id == uid then f u else u) }

/-- `$addToSet`: append an element unless it is already present. -/
def addToSet (l : List Nat) (x : Nat) : List Nat :=
  if x ∈ l then l else l ++ [x]

/-! ## Connection registry (`backend/server.js`)

`activeUsers : Map userId → socketId` and
`socketToUser : Map socketId → userId`. -/

/-- `Map.set`: replace the value at an existing key, else append. -/
def mapSet (m : List (Nat × Nat)) (k v : Nat) : List (Nat × Nat) :=
  if m.any (fun p => p.1 == k) then
    m.map (fun p => if p.1 == k then (k, v) else p)
  else
    m ++ [(k, v)]

/-- `Map.get`. -/
def mapGet (m : List (Nat × Nat)) (k : Nat) : Option Nat :=
  (m.find? (fun p => p.1 == k)).map (fun p => p.2)

/-- `Map.delete`. -/
def mapDelete (m : List (Nat × Nat)) (k : Nat) : List (Nat × Nat) :=
  m.filter (fun p => p.1 != k)

/-- The process-local connection registry of `server.js`. -/
structure Registry where
  activeUsers : List (Nat × Nat)
  socketToUser : List (Nat × Nat)
deriving Repr, DecidableEq

/-- The empty registry at server start. -/
def Registry.empty : Registry := { activeUsers := [], socketToUser := [] }

/-- `socket.on('join')`: `activeUsers.set(userId, socket.id)` and
`socketToUser.set(socket.id, userId)` (the `socket.join(userId)` room
subscription carries no registry state and no handler ever emits to that
room, so it is not modelled). -/
def joinHandler (r : Registry) (userId socketId : Nat) : Registry :=
  { activeUsers := mapSet r.activeUsers userId socketId,
    socketToUser := mapSet r.socketToUser socketId userId }

/-- `socket.on('disconnect')`: look the socket up in `socketToUser`; if
present, delete the user's `activeUsers` entry (keyed by the user id
alone) and the socket's `socketToUser` entry. -/
def disconnectHandler (r : Registry) (socketId : Nat) : Registry :=
  match mapGet r.socketToUser socketId with
  | some userId =>
      { activeUsers := mapDelete r.activeUsers userId,
        socketToUser := mapDelete r.socketToUser socketId }
  | none => r

/-- Registry states reachable from server start by join/disconnect
events. -/
inductive Reach : Registry → Prop
  | empty : Reach Registry.empty
  | join (r : Registry) (userId socketId : Nat) :
      Reach r → Reach (joinHandler r userId socketId)
  | disconnect (r : Registry) (socketId : Nat) :
      Reach r → Reach (disconnectHandler r socketId)

/-! ## REST message routes (`backend/routes/messages.js`) -/

/-- JavaScript `String.prototype.trim`, modelled executably on the
character list: strip leading and trailing whitespace. -/
def strTrim (s : String) : String :=
  { data := ((s.data.dropWhile Char.isWhitespace).reverse.dropWhile
      Char.isWhitespace).reverse }

/-- `POST /api/messages`: validate (express-validator trims the content,
requires it non-empty and at most 1000 characters), check the receiver
exists, check the sender's friend list contains the receiver unless the
receiver is the sender, then persist.  Returns the created message and
the new store.  A missing sender document would make
`senderUser.friends` throw, caught as a 500. -/
def restSendMessage (db : DB) (senderId receiverId : Nat)
    (content messageType fileUrl : String) (now : Nat) :
    Except (Nat × String) (Msg × DB) :=
  let content := strTrim content
  if content = "" ∨ content.data.length > 1000 then
    .error (400, "Validation errors")
  else
    match findUser db receiverId with
    | none => .error (404, "Receiver not found")
    | some _ =>
      match findUser db senderId with
      | none => .error (500, "Server error")
      | some senderUser =>
        if ¬ receiverId ∈ senderUser.friends ∧ receiverId ≠ senderId then
          .error (403, "You can only send messages to friends")
        else
          let m : Msg :=
            { id := db.nextMsgId, sender := senderId, receiver := receiverId,
              content := content, messageType := messageType, fileUrl := fileUrl,
              isRead := false, readAt := none, createdAt := now }
          .ok (m, { db with messages := db.messages ++ [m],
                            nextMsgId := db.nextMsgId + 1 })

/-- `$match` predicate of the conversations pipeline: the user is sender
or receiver. -/
def involvesUser (u : Nat) (m : Msg) : Bool :=
  m.sender == u || m.receiver == u

/-- `$addFields otherUser`: the counterparty of a message from `u`'s
point of view. -/
def otherUser (u : Nat) (m : Msg) : Nat :=
  if m.sender == u then m.receiver else m.sender

/-- The `$sort { createdAt: -1 }` order: newer (or equal) first. -/
def byNewest (a b : Msg) : Prop :=
  b.createdAt ≤ a.createdAt

instance : DecidableRel byNewest :=
  fun a b => inferInstanceAs (Decidable (b.createdAt ≤ a.createdAt))

instance : IsTotal Msg byNewest :=
  ⟨fun a b => (Nat.le_total b.createdAt a.createdAt).elim Or.inl Or.inr⟩

instance : IsTrans Msg byNewest :=
  ⟨fun _ _ _ hab hbc => Nat.le_trans hbc hab⟩

/-- One row of the conversations aggregation: `_id` (the counterparty),
`lastMessage` and `unreadCount`. -/
structure ConvRow where
  otherId : Nat
  lastMessage : Msg
  unreadCount : Nat
deriving Repr, DecidableEq

/-- Distinct group keys in order of first appearance. -/
def firstKeys (l : List Nat) : List Nat :=
  l.foldl (fun acc k => if k ∈ acc then acc else acc ++ [k]) []

/-- The `$sort { lastMessage.createdAt: -1 }` order on rows. -/
def rowByNewest (a b : ConvRow) : Prop :=
  b.lastMessage.createdAt ≤ a.lastMessage.createdAt

instance : DecidableRel rowByNewest :=
  fun a b =>
    inferInstanceAs (Decidable (b.lastMessage.createdAt ≤ a.lastMessage.createdAt))

/-- `$match` stage: the messages involving `u`. -/
def relMsgs (msgs : List Msg) (u : Nat) : List Msg :=
  msgs.filter (involvesUser u)

/-- `$sort { createdAt: -1 }` stage. -/
def sortedMsgs (msgs : List Msg) (u : Nat) : List Msg :=
  List.insertionSort byNewest (relMsgs msgs u)

/-- The `$group` keys: distinct counterparties in order of first
appearance in the sorted stream. -/
def convKeys (msgs : List Msg) (u : Nat) : List Nat :=
  firstKeys ((sortedMsgs msgs u).map (otherUser u))

/-- One `$group` bucket: `$first` of the sorted stream restricted to the
key as `lastMessage`, and the `$sum`med unread-to-`u` count. -/
def convRowFor (msgs : List Msg) (u : Nat) (k : Nat) : Option ConvRow :=
  match (sortedMsgs msgs u).filter (fun m => otherUser u m == k) with
  | [] => none
  | m :: rest =>
    some { otherId := k, lastMessage := m,
           unreadCount :=
             ((m :: rest).filter (fun x => x.receiver == u && !x.isRead)).length }

/-- `GET /api/messages/conversations` aggregation pipeline: `$match` the
messages involving `u`, `$addFields otherUser`, `$sort createdAt`
descending, `$group` by `otherUser` taking `$first` as `lastMessage` and
summing unread messages addressed to `u`, then `$lookup` of the `users`
collection on the counterparty id followed by `$unwind '$userInfo'` —
one output row per matching users document, so a counterparty id with
no users document loses its row — and finally `$sort` the rows by
`lastMessage.createdAt` descending (the `$project`ed user display
fields carry no message state and are not kept on the row). -/
def conversationsAgg (db : DB) (u : Nat) : List ConvRow :=
  List.insertionSort rowByNewest
    (((convKeys db.messages u).filterMap (convRowFor db.messages u)).flatMap
      (fun row => (db.users.filter (fun v => v.id == row.otherId)).map
        (fun _ => row)))

/-- The unconditional `updateMany` of `GET /api/messages/:userId`: mark
every unread message from `otherId` to `curId` as read. -/
def markBetweenRead (msgs : List Msg) (otherId curId : Nat) (now : Nat) : List Msg :=
  msgs.map (fun m =>
    if m.sender == otherId && (m.receiver == curId && !m.isRead) then
      { m with isRead := true, readAt := some now }
    else m)

/-- `GET /api/messages/:userId`: check the other user exists, page
through the pair's messages newest-first (`skip` then `limit`), return
the page oldest-first, and as a side effect mark every unread message
from the other user to the current user as read (no page bound on the
`updateMany`). -/
def getMessagesBetween (db : DB) (curId otherId : Nat) (page limit : Nat)
    (now : Nat) : Except (Nat × String) (List Msg × DB) :=
  match findUser db otherId with
  | none => .error (404, "User not found")
  | some _ =>
    let between := db.messages.filter (fun m =>
      (m.sender == curId && m.receiver == otherId) ||
      (m.sender == otherId && m.receiver == curId))
    let pageMsgs :=
      (((List.insertionSort byNewest between).drop ((page - 1) * limit)).take limit).reverse
    .ok (pageMsgs,
         { db with messages := markBetweenRead db.messages otherId curId now })

/-- `PUT /api/messages/:messageId/read`: only the receiver may mark, and
only an unread message is written. -/
def markMessageRead (db : DB) (requesterId msgId : Nat) (now : Nat) :
    Except (Nat × String) DB :=
  match findMsg db msgId with
  | none => .error (404, "Message not found")
  | some m =>
    if m.receiver ≠ requesterId then
      .error (403, "Not authorized to mark this message as read")
    else if ¬ m.isRead then
      .ok { db with messages := db.messages.map (fun x =>
              if x.id == msgId then { x with isRead := true, readAt := some now }
              else x) }
    else
      .ok db

/-- `DELETE /api/messages/:messageId`: only the sender may delete. -/
def deleteMessage (db : DB) (requesterId msgId : Nat) :
    Except (Nat × String) DB :=
  match findMsg db msgId with
  | none => .error (404, "Message not found")
  | some m =>
    if m.sender ≠ requesterId then
      .error (403, "Not authorized to delete this message")
    else
      .ok { db with messages := db.messages.filter (fun x => x.id != msgId) }

/-- `GET /api/messages/unread/count`: count the messages addressed to
the user with the unread flag set. -/
def unreadCountDocs (db : DB) (userId : Nat) : Nat :=
  (db.messages.filter (fun m => m.receiver == userId && !m.isRead)).length

/-! ## Socket event handlers (`backend/server.js`) -/

/-- An event emitted by the server to one socket. -/
structure Emit where
  targetSocket : Nat
  event : String
deriving Repr, DecidableEq

/-- The acknowledgement callback payload of `sendMessage`. -/
structure SocketAck where
  success : Bool
  message : String
deriving Repr, DecidableEq

/-- The combined server state: document store plus connection
registry. -/
structure ServerState where
  db : DB
  reg : Registry
deriving Repr, DecidableEq

/-- `socket.on('join')` at the server level: update the registry; the
handler emits no event. -/
def handleJoin (s : ServerState) (socketId userId : Nat) :
    ServerState × List Emit :=
  ({ s with reg := joinHandler s.reg userId socketId }, [])

/-- `socket.on('disconnect')` at the server level: update the registry;
the handler emits no event. -/
def handleDisconnect (s : ServerState) (socketId : Nat) :
    ServerState × List Emit :=
  ({ s with reg := disconnectHandler s.reg socketId }, [])

/-- `socket.on('sendMessage')`: resolve the sender from `socketToUser`
(`Not joined` otherwise), require a receiver id and non-blank content,
persist the message — with no friendship check and no receiver-existence
check — then emit `receiveMessage` to the receiver's socket if
registered and `messageSent` back to the sending socket, acknowledging
success. -/
def socketSendMessage (s : ServerState) (socketId : Nat) (receiverId : Nat)
    (content messageType fileUrl : String) (now : Nat) :
    ServerState × List Emit × SocketAck :=
  match mapGet s.reg.socketToUser socketId with
  | none => (s, [], { success := false, message := "Not joined" })
  | some senderId =>
    if strTrim content = "" then
      (s, [], { success := false,
                message := "receiverId and non-empty content are required" })
    else
      let m : Msg :=
        { id := s.db.nextMsgId, sender := senderId, receiver := receiverId,
          content := strTrim content, messageType := messageType, fileUrl := fileUrl,
          isRead := false, readAt := none, createdAt := now }
      let db' := { s.db with messages := s.db.messages ++ [m],
                             nextMsgId := s.db.nextMsgId + 1 }
      let receiverEmits :=
        match mapGet s.reg.activeUsers receiverId with
        | some rsid => [{ targetSocket := rsid, event := "receiveMessage" : Emit }]
        | none => []
      ({ s with db := db' },
       receiverEmits ++ [{ targetSocket := socketId, event := "messageSent" }],
       { success := true, message := "" })

/-! ## Friend routes (`backend/routes/friends.js`) -/

/-- `POST /api/friends/request/:id`: reject self-requests, a missing
target, an existing friendship, an already-sent request, and an
already-received request from the target; otherwise `$push` the pair of
request entries on both documents. -/
def sendFriendRequest (db : DB) (currentUserId targetUserId : Nat) (now : Nat) :
    Except (Nat × String) DB :=
  if targetUserId = currentUserId then
    .error (400, "You cannot send a friend request to yourself")
  else
    match findUser db targetUserId with
    | none => .error (404, "User not found")
    | some _ =>
      match findUser db currentUserId with
      | none => .error (500, "Server error")
      | some currentUser =>
        if targetUserId ∈ currentUser.friends then
          .error (400, "You are already friends with this user")
        else if currentUser.sentFriendRequests.any (fun r => r.toId == targetUserId) then
          .error (400, "Friend request already sent")
        else if currentUser.friendRequests.any (fun r => r.fromId == targetUserId) then
          .error (400, "This user has already sent you a friend request")
        else
          .ok (updateUser
                (updateUser db currentUserId (fun u =>
                  { u with sentFriendRequests :=
                      u.sentFriendRequests ++ [{ toId := targetUserId, createdAt := now }] }))
                targetUserId (fun u =>
                  { u with friendRequests :=
                      u.friendRequests ++ [{ fromId := currentUserId, createdAt := now }] }))

/-- `POST /api/friends/accept/:id`: reject a missing sender or a missing
pending request from them; otherwise `$pull` the two request entries and
`$addToSet` each user into the other's friend list. -/
def acceptFriendRequest (db : DB) (currentUserId senderUserId : Nat) :
    Except (Nat × String) DB :=
  match findUser db senderUserId with
  | none => .error (404, "User not found")
  | some _ =>
    match findUser db currentUserId with
    | none => .error (500, "Server error")
    | some currentUser =>
      if currentUser.friendRequests.any (fun r => r.fromId == senderUserId) then
        .ok (updateUser
              (updateUser db currentUserId (fun u =>
                { u with
                  friendRequests :=
                    u.friendRequests.filter (fun r => r.fromId != senderUserId)
                  friends := addToSet u.friends senderUserId }))
              senderUserId (fun u =>
                { u with
                  sentFriendRequests :=
                    u.sentFriendRequests.filter (fun r => r.toId != currentUserId)
                  friends := addToSet u.friends currentUserId }))
      else
        .error (400, "No friend request found from this user")

/-- `POST /api/friends/decline/:id`: reject a missing sender or a missing
pending request; otherwise `$pull` the two request entries only. -/
def declineFriendRequest (db : DB) (currentUserId senderUserId : Nat) :
    Except (Nat × String) DB :=
  match findUser db senderUserId with
  | none => .error (404, "User not found")
  | some _ =>
    match findUser db currentUserId with
    | none => .error (500, "Server error")
    | some currentUser =>
      if currentUser.friendRequests.any (fun r => r.fromId == senderUserId) then
        .ok (updateUser
              (updateUser db currentUserId (fun u =>
                { u with friendRequests :=
                    u.friendRequests.filter (fun r => r.fromId != senderUserId) }))
              senderUserId (fun u =>
                { u with sentFriendRequests :=
                    u.sentFriendRequests.filter (fun r => r.toId != currentUserId) }))
      else
        .error (400, "No friend request found from this user")

/-- `DELETE /api/friends/:id`: reject a missing user or a non-friend;
otherwise `$pull` each id from the other's friend list. -/
def removeFriend (db : DB) (currentUserId friendUserId : Nat) :
    Except (Nat × String) DB :=
  match findUser db friendUserId with
  | none => .error (404, "User not found")
  | some _ =>
    match findUser db currentUserId with
    | none => .error (500, "Server error")
    | some currentUser =>
      if friendUserId ∈ currentUser.friends then
        .ok (updateUser
              (updateUser db currentUserId (fun u =>
                { u with friends := u.friends.filter (fun f => f != friendUserId) }))
              friendUserId (fun u =>
                { u with friends := u.friends.filter (fun f => f != currentUserId) }))
      else
        .error (400, "You are not friends with this user")

/-- The four friend operations, for invariant preservation. -/
inductive FriendOp
  | send (currentUserId targetUserId now : Nat)
  | accept (currentUserId senderUserId : Nat)
  | decline (currentUserId senderUserId : Nat)
  | remove (currentUserId friendUserId : Nat)
deriving Repr, DecidableEq

/-- Run a friend operation; a rejected request leaves the store
unchanged (every error is raised before the updates are issued). -/
def applyFriendOp (db : DB) : FriendOp → DB
  | .send c t now =>
    match sendFriendRequest db c t now with
    | .ok db' => db'
    | .error _ => db
  | .accept c s =>
    match acceptFriendRequest db c s with
    | .ok db' => db'
    | .error _ => db
  | .decline c s =>
    match declineFriendRequest db c s with
    | .ok db' => db'
    | .error _ => db
  | .remove c f =>
    match removeFriend db c f with
    | .ok db' => db'
    | .error _ => db

/-- There is a pending outgoing request from `u` to the user id `i`. -/
def sentTo (u : User) (i : Nat) : Prop :=
  ∃ r ∈ u.sentFriendRequests, r.toId = i

/-- There is a pending incoming request to `u` from the user id `i`. -/
def reqFrom (u : User) (i : Nat) : Prop :=
  ∃ r ∈ u.friendRequests, r.fromId = i

instance (u : User) (i : Nat) : Decidable (sentTo u i) := by
  unfold sentTo
  infer_instance

instance (u : User) (i : Nat) : Decidable (reqFrom u i) := by
  unfold reqFrom
  infer_instance

/-- The relationship invariant of the user store: unique ids, symmetric
friendship, each outgoing request mirrored as the counterparty's
incoming request, a pending request excluding friendship, no pending
requests in both directions (taking `u = v`, this conjunct also rules
out self-requests), and no self-friendship. -/
def Inv (db : DB) : Prop :=
  (db.users.map User.id).Nodup ∧
  (∀ u ∈ db.users, ∀ v ∈ db.users, (v.id ∈ u.friends ↔ u.id ∈ v.friends)) ∧
  (∀ u ∈ db.users, ∀ v ∈ db.users, (sentTo u v.id ↔ reqFrom v u.id)) ∧
  (∀ u ∈ db.users, ∀ v ∈ db.users, sentTo u v.id → v.id ∉ u.friends) ∧
  (∀ u ∈ db.users, ∀ v ∈ db.users, sentTo u v.id → ¬ sentTo v u.id) ∧
  (∀ u ∈ db.users, u.id ∉ u.friends)

instance (db : DB) : Decidable (Inv db) := by
  unfold Inv
  infer_instance

/-! ## Profile route (`backend/routes/users.js`) -/

/-- The JSON profile object returned by `GET /api/users/profile/:id`,
restricted to the fields the claim is about; `none` models a field
deleted from the payload (`password` is always deselected). -/
structure ProfileView where
  id : Nat
  email : Option String
  friendRequests : Option (List FromReq)
  sentFriendRequests : Option (List ToReq)
  friends : List Nat
deriving Repr, DecidableEq

/-- `GET /api/users/profile/:id`: look the user up, compute `isFriend`
(the requester appears in the profile owner's friend list) and
`isOwnProfile`, and delete `email`, `friendRequests` and
`sentFriendRequests` from the payload when the requester is neither. -/
def getProfile (db : DB) (requesterId targetId : Nat) :
    Except (Nat × String) (ProfileView × Bool × Bool) :=
  match findUser db targetId with
  | none => .error (404, "User not found")
  | some user =>
    let isFriend := requesterId ∈ user.friends
    let isOwnProfile := user.id = requesterId
    let base : ProfileView :=
      { id := user.id, email := some user.email,
        friendRequests := some user.friendRequests,
        sentFriendRequests := some user.sentFriendRequests,
        friends := user.friends }
    let userData :=
      if ¬ isFriend ∧ ¬ isOwnProfile then
        { base with email := none, friendRequests := none,
                    sentFriendRequests := none }
      else base
    .ok (userData, decide isFriend, decide isOwnProfile)

/-! ## Post visibility (modelled from the spec) -/

/-- A post's visibility tier (`private` is a Lean keyword, hence the
guillemets). -/
inductive Visibility
  | «public»
  | friends
  | «private»
deriving Repr, DecidableEq

/-- A `Post` document restricted to what the visibility filter reads. -/
structure Post where
  id : Nat
  author : Nat
  visibility : Visibility
deriving Repr, DecidableEq

/-- Modelled from the spec: `backend/routes/posts.js` is not included
under `src/` (only the README route listing and the frontend callers
are), so the post-list visibility filter is taken from the spec's words:
"own posts always visible to owner; friends see `public`+`friends`;
non-friends see only `public`", with friendship read from the author's
friend list (symmetric by the relationship invariant). -/
def visibleTo (db : DB) (requesterId : Nat) (p : Post) : Bool :=
  if p.author == requesterId then
    true
  else
    match findUser db p.author with
    | some author =>
      if requesterId ∈ author.friends then
        p.visibility == .«public» || p.visibility == .friends
      else
        p.visibility == .«public»
    | none => p.visibility == .«public»

/-- Modelled from the spec: the post list returned to a requester keeps
exactly the posts the visibility filter admits. -/
def postList (db : DB) (posts : List Post) (requesterId : Nat) : List Post :=
  posts.filter (visibleTo db requesterId)

/-! ## Concrete sample states for witnesses and counterexamples -/

/-- A store with two users who are not friends, ids 1 and 2. -/
def dbStrangers : DB :=
  { users :=
      [{ id := 1, email := "a@x", password := "p", friends := [],
         friendRequests := [], sentFriendRequests := [] },
       { id := 2, email := "b@x", password := "p", friends := [],
         friendRequests := [], sentFriendRequests := [] }],
    messages := [], nextMsgId := 0 }

/-- Sample user 1, friends with user 2. -/
def uA : User :=
  { id := 1, email := "a@x", password := "p", friends := [2],
    friendRequests := [], sentFriendRequests := [] }

/-- Sample user 2, friends with user 1. -/
def uB : User :=
  { id := 2, email := "b@x", password := "p", friends := [1],
    friendRequests := [], sentFriendRequests := [] }

/-- Sample user 3, friends with nobody. -/
def uC : User :=
  { id := 3, email := "c@x", password := "p", friends := [],
    friendRequests := [], sentFriendRequests := [] }

/-- A store with two mutual friends, ids 1 and 2, and a stranger 3. -/
def dbFriends : DB :=
  { users := [uA, uB, uC], messages := [], nextMsgId := 0 }

/-- `dbStrangers` with user 1 joined on socket 10. -/
def stStrangers : ServerState :=
  { db := dbStrangers,
    reg := { activeUsers := [(1, 10)], socketToUser := [(10, 1)] } }

/-! ## Registry lemmas -/

theorem mapSet_keys_of_any (m : List (Nat × Nat)) (k v : Nat)
    (h : m.any (fun p => p.1 == k) = true) :
    (mapSet m k v).map Prod.fst = m.map Prod.fst := by
  unfold mapSet
  rw [if_pos h, List.map_map]
  apply List.map_congr_left
  intro p _
  by_cases hp : p.1 = k
  · simp [hp]
  · simp [hp]

theorem nodup_keys_mapSet (m : List (Nat × Nat)) (k v : Nat)
    (h : (m.map Prod.fst).Nodup) : ((mapSet m k v).map Prod.fst).Nodup := by
  by_cases hany : m.any (fun p => p.1 == k) = true
  · rw [mapSet_keys_of_any m k v hany]
    exact h
  · unfold mapSet
    rw [if_neg hany, List.map_append]
    have hk : k ∉ m.map Prod.fst := by
      intro hmem
      obtain ⟨p, hp, hpk⟩ := List.mem_map.mp hmem
      exact hany (List.any_eq_true.mpr ⟨p, hp, by simp [hpk]⟩)
    simp [List.nodup_append, h, hk]

theorem nodup_keys_mapDelete (m : List (Nat × Nat)) (k : Nat)
    (h : (m.map Prod.fst).Nodup) : ((mapDelete m k).map Prod.fst).Nodup :=
  h.sublist (List.Sublist.map Prod.fst (List.filter_sublist m))

theorem mapGet_mapSet_self (m : List (Nat × Nat)) (k v : Nat) :
    mapGet (mapSet m k v) k = some v := by
  unfold mapSet mapGet
  by_cases hany : m.any (fun p => p.1 == k) = true
  · rw [if_pos hany, List.find?_map]
    have hpred : ((fun p : Nat × Nat => p.1 == k) ∘
        (fun p => if p.1 == k then (k, v) else p)) =
        (fun p : Nat × Nat => p.1 == k) := by
      funext p
      by_cases hp : p.1 = k
      · simp [hp]
      · simp [hp]
    rw [hpred]
    obtain ⟨p, hp, hpk⟩ := List.any_eq_true.mp hany
    have hsome : (m.find? (fun p => p.1 == k)).isSome := by
      rw [List.find?_isSome]
      exact ⟨p, hp, hpk⟩
    obtain ⟨q, hq⟩ := Option.isSome_iff_exists.mp hsome
    have hqk := List.find?_some hq
    have hq1 : q.1 = k := by simpa using hqk
    simp only [hq, Option.map_map, Option.map_some]
    simp [hq1]
  · rw [if_neg hany]
    have hnone : m.find? (fun p => p.1 == k) = none := by
      rw [List.find?_eq_none]
      intro p hp
      intro hpk
      exact hany (List.any_eq_true.mpr ⟨p, hp, hpk⟩)
    rw [List.find?_append, hnone]
    simp

theorem mapGet_mapSet_ne (m : List (Nat × Nat)) (k v k' : Nat) (h : k' ≠ k) :
    mapGet (mapSet m k v) k' = mapGet m k' := by
  unfold mapSet mapGet
  by_cases hany : m.any (fun p => p.1 == k) = true
  · rw [if_pos hany, List.find?_map]
    have hpred : ((fun p : Nat × Nat => p.1 == k') ∘
        (fun p => if p.1 == k then (k, v) else p)) =
        (fun p : Nat × Nat => p.1 == k') := by
      funext p
      by_cases hp : p.1 = k
      · simp [hp, (Ne.symm h)]
      · simp [hp]
    rw [hpred]
    cases hfind : m.find? (fun p => p.1 == k') with
    | none => simp
    | some q =>
      have hq1 : q.1 = k' := by simpa using List.find?_some hfind
      simp [hq1, h]
  · rw [if_neg hany, List.find?_append]
    cases hfind : m.find? (fun p => p.1 == k') with
    | none =>
      simp [Ne.symm h]
    | some q =>
      simp

theorem mapGet_mapDelete_self (m : List (Nat × Nat)) (k : Nat) :
    mapGet (mapDelete m k) k = none := by
  unfold mapDelete mapGet
  have : (m.filter (fun p => p.1 != k)).find? (fun p => p.1 == k) = none := by
    rw [List.find?_eq_none]
    intro p hp
    have := (List.mem_filter.mp hp).2
    simp at this
    simp [this]
  rw [this]
  rfl

/-- Every reachable registry state has duplicate-free `activeUsers`
keys. -/
theorem reach_activeUsers_nodup (r : Registry) (h : Reach r) :
    (r.activeUsers.map Prod.fst).Nodup := by
  induction h with
  | empty => simp [Registry.empty]
  | join r' userId socketId _ ih =>
    exact nodup_keys_mapSet _ _ _ ih
  | disconnect r' socketId _ ih =>
    unfold disconnectHandler
    cases mapGet r'.socketToUser socketId with
    | none => exact ih
    | some uid => exact nodup_keys_mapDelete _ _ ih

/-- After two joins by the same user, the first socket still maps to the
user in `socketToUser`. -/
theorem socketToUser_after_two_joins (r : Registry) (u h1 h2 : Nat) :
    mapGet (joinHandler (joinHandler r u h1) u h2).socketToUser h1 = some u := by
  unfold joinHandler
  by_cases he : h1 = h2
  · subst he
    exact mapGet_mapSet_self _ _ _
  · rw [mapGet_mapSet_ne _ _ _ _ he]
    exact mapGet_mapSet_self _ _ _

/-- C4 counterexample: the claim predicts that after user 1 joins with
socket 10 and then with socket 20, a disconnect of socket 10 leaves the
mapping 1 ↦ 20 intact; in the code the disconnect deletes the
`activeUsers` entry keyed by user 1, so user 1 maps to nothing. -/
theorem registry_disconnect_counterexample :
    mapGet (disconnectHandler (joinHandler (joinHandler Registry.empty 1 10) 1 20)
        10).activeUsers 1 = none ∧
    ¬ mapGet (disconnectHandler (joinHandler (joinHandler Registry.empty 1 10) 1 20)
        10).activeUsers 1 = some 20 := by
  decide

/-- C4 (amended): in every reachable registry state each user maps to at
most one handle; a join maps the user to the new handle, replacing any
previous one; a disconnect removes the `activeUsers` entry of whichever
user the disconnecting socket maps to in `socketToUser` (not merely
entries belonging to that connection) together with the socket's own
`socketToUser` entry — in particular, after user U joins with handle H1
and then H2, a disconnect of H1 removes U's mapping entirely. -/
theorem registry_state_machine (r : Registry) (h : Reach r) (u h1 h2 : Nat) :
    (r.activeUsers.map Prod.fst).Nodup ∧
    mapGet (joinHandler r u h1).activeUsers u = some h1 ∧
    (∀ sid uid, mapGet r.socketToUser sid = some uid →
      (disconnectHandler r sid).activeUsers = mapDelete r.activeUsers uid ∧
      (disconnectHandler r sid).socketToUser = mapDelete r.socketToUser sid) ∧
    mapGet (disconnectHandler (joinHandler (joinHandler r u h1) u h2)
        h1).activeUsers u = none := by
  refine ⟨reach_activeUsers_nodup r h, mapGet_mapSet_self _ _ _, ?_, ?_⟩
  · intro sid uid hsid
    unfold disconnectHandler
    rw [hsid]
    exact ⟨rfl, rfl⟩
  · unfold disconnectHandler
    rw [socketToUser_after_two_joins]
    exact mapGet_mapDelete_self _ _

/-- C4 witness: the amended statement evaluated from the empty registry
with user 1 and sockets 10 and 20. -/
theorem registry_state_machine_witness :
    (Registry.empty.activeUsers.map Prod.fst).Nodup ∧
    mapGet (joinHandler Registry.empty 1 10).activeUsers 1 = some 10 ∧
    (∀ sid uid, mapGet Registry.empty.socketToUser sid = some uid →
      (disconnectHandler Registry.empty sid).activeUsers =
        mapDelete Registry.empty.activeUsers uid ∧
      (disconnectHandler Registry.empty sid).socketToUser =
        mapDelete Registry.empty.socketToUser sid) ∧
    mapGet (disconnectHandler (joinHandler (joinHandler Registry.empty 1 10) 1 20)
        10).activeUsers 1 = none :=
  registry_state_machine Registry.empty Reach.empty 1 10 20

/-- C8 counterexample: on a concrete state, the join handler and the
disconnect handler emit no event at all, in particular no `userOnline`
and no `userOffline` push. -/
theorem presence_events_counterexample :
    (handleJoin stStrangers 10 1).2 = [] ∧
    (∀ e ∈ (handleJoin stStrangers 10 1).2, e.event ≠ "userOnline") ∧
    (handleDisconnect stStrangers 10).2 = [] ∧
    (∀ e ∈ (handleDisconnect stStrangers 10).2, e.event ≠ "userOffline") := by
  refine ⟨rfl, ?_, rfl, ?_⟩
  · intro e he
    simp [handleJoin] at he
  · intro e he
    simp [handleDisconnect] at he

/-- C8 (amended): the real-time channel pushes no presence events — the
join and disconnect handlers emit nothing, and the only events the
server ever emits are `receiveMessage` and `messageSent` from the send
handler; `userOnline`/`userOffline` notifications do not exist on the
server side. -/
theorem presence_events_amended (s : ServerState) (socketId userId receiverId : Nat)
    (content messageType fileUrl : String) (now : Nat) :
    (handleJoin s socketId userId).2 = [] ∧
    (handleDisconnect s socketId).2 = [] ∧
    ((socketSendMessage s socketId receiverId content messageType fileUrl now).2.1.all
      (fun e => e.event == "receiveMessage" || e.event == "messageSent")) = true := by
  refine ⟨rfl, rfl, ?_⟩
  unfold socketSendMessage
  cases h1 : mapGet s.reg.socketToUser socketId with
  | none => simp
  | some sid =>
    by_cases h2 : strTrim content = ""
    · simp [h2]
    · cases h3 : mapGet s.reg.activeUsers receiverId <;> simp [h2, h3]

/-- C1 counterexample: users 1 and 2 are not friends and distinct, user 1
is joined on socket 10, yet the real-time send event persists a message
from 1 to 2 and acknowledges success. -/
theorem socket_send_ungated_counterexample :
    (socketSendMessage stStrangers 10 2 "hello" "text" "" 5).2.2.success = true ∧
    (socketSendMessage stStrangers 10 2 "hello" "text" "" 5).1.db.messages.map
      (fun m => (m.sender, m.receiver)) = [(1, 2)] ∧
    stStrangers.db.messages = [] ∧
    (findUser dbStrangers 1).map User.friends = some [] ∧
    (2 : Nat) ≠ 1 := by
  decide

/-- C1 (amended): the REST send endpoint succeeds exactly when the
receiver is in the sender's friend list or is the sender, failing with
the 403 authorization error otherwise (persisting nothing, the error
carrying no store); the real-time send event performs no friendship
check: once the sender has joined and the content is non-blank it
persists the message to any receiver and acknowledges success. -/
theorem message_friendship_gating (db : DB) (reg : Registry)
    (senderId receiverId socketId now : Nat) (senderUser receiverUser : User)
    (content messageType fileUrl : String)
    (hs : findUser db senderId = some senderUser)
    (hr : findUser db receiverId = some receiverUser)
    (hc1 : ¬ strTrim content = "") (hc2 : (strTrim content).data.length ≤ 1000) :
    ((∃ m db', restSendMessage db senderId receiverId content messageType fileUrl now
        = .ok (m, db')) ↔
      (receiverId ∈ senderUser.friends ∨ receiverId = senderId)) ∧
    (receiverId ∉ senderUser.friends → receiverId ≠ senderId →
      restSendMessage db senderId receiverId content messageType fileUrl now
        = .error (403, "You can only send messages to friends")) ∧
    (mapGet reg.socketToUser socketId = some senderId →
      ∃ m, (socketSendMessage { db := db, reg := reg } socketId receiverId content
              messageType fileUrl now).1.db.messages = db.messages ++ [m] ∧
           m.sender = senderId ∧ m.receiver = receiverId ∧
           (socketSendMessage { db := db, reg := reg } socketId receiverId content
              messageType fileUrl now).2.2.success = true) := by
  have hval : ¬ (strTrim content = "" ∨ (strTrim content).data.length > 1000) := by
    push_neg
    exact ⟨hc1, by omega⟩
  refine ⟨?_, ?_, ?_⟩
  · unfold restSendMessage
    simp only
    rw [if_neg hval, hr, hs]
    dsimp only
    by_cases hcond : receiverId ∉ senderUser.friends ∧ receiverId ≠ senderId
    · rw [if_pos hcond]
      constructor
      · rintro ⟨m, db', hmd⟩
        cases hmd
      · intro hor
        rcases hcond with ⟨hni, hne⟩
        rcases hor with hmem | heq
        · exact absurd hmem hni
        · exact absurd heq hne
    · rw [if_neg hcond]
      constructor
      · intro _
        by_cases hmem : receiverId ∈ senderUser.friends
        · exact Or.inl hmem
        · right
          by_contra hne
          exact hcond ⟨hmem, hne⟩
      · intro _
        exact ⟨_, _, rfl⟩
  · intro hni hne
    unfold restSendMessage
    simp only
    rw [if_neg hval, hr, hs]
    dsimp only
    rw [if_pos ⟨hni, hne⟩]
  · intro hjoin
    unfold socketSendMessage
    rw [hjoin]
    dsimp only
    rw [if_neg hc1]
    cases h3 : mapGet reg.activeUsers receiverId <;>
      exact ⟨_, rfl, rfl, rfl, rfl⟩

/-- C1 witness: the amended statement evaluated on the two-friend store,
sender 1 on socket 10 sending "hi" to user 2. -/
theorem message_friendship_gating_witness :
    ((∃ m db', restSendMessage dbFriends 1 2 "hi" "text" "" 5 = .ok (m, db')) ↔
      ((2 : Nat) ∈ uA.friends ∨ (2 : Nat) = 1)) ∧
    ((2 : Nat) ∉ uA.friends → (2 : Nat) ≠ 1 →
      restSendMessage dbFriends 1 2 "hi" "text" "" 5
        = .error (403, "You can only send messages to friends")) ∧
    (mapGet ({ activeUsers := [(1, 10)], socketToUser := [(10, 1)] } :
        Registry).socketToUser 10 = some 1 →
      ∃ m, (socketSendMessage
              { db := dbFriends,
                reg := { activeUsers := [(1, 10)], socketToUser := [(10, 1)] } }
              10 2 "hi" "text" "" 5).1.db.messages = dbFriends.messages ++ [m] ∧
           m.sender = 1 ∧ m.receiver = 2 ∧
           (socketSendMessage
              { db := dbFriends,
                reg := { activeUsers := [(1, 10)], socketToUser := [(10, 1)] } }
              10 2 "hi" "text" "" 5).2.2.success = true) :=
  message_friendship_gating dbFriends
    { activeUsers := [(1, 10)], socketToUser := [(10, 1)] }
    1 2 10 5 uA uB "hi" "text" "" rfl rfl (by decide) (by decide)

/-- C10: profile redaction for non-friends — a requester who is neither
the profile owner nor in the owner's friend list receives a payload with
the email and both pending-request lists deleted (and both flags false);
the owner or a friend receives all three fields. -/
theorem profile_redaction (db : DB) (requesterId targetId : Nat) (user : User)
    (hU : findUser db targetId = some user) :
    (requesterId ∉ user.friends → user.id ≠ requesterId →
      getProfile db requesterId targetId =
        .ok ({ id := user.id, email := none, friendRequests := none,
               sentFriendRequests := none, friends := user.friends },
             false, false)) ∧
    (requesterId ∈ user.friends ∨ user.id = requesterId →
      ∃ f o, getProfile db requesterId targetId =
        .ok ({ id := user.id, email := some user.email,
               friendRequests := some user.friendRequests,
               sentFriendRequests := some user.sentFriendRequests,
               friends := user.friends }, f, o)) := by
  constructor
  · intro hni hno
    unfold getProfile
    rw [hU]
    dsimp only
    rw [if_pos ⟨hni, hno⟩]
    simp [hni, hno]
  · intro hor
    unfold getProfile
    rw [hU]
    dsimp only
    rw [if_neg (by tauto)]
    exact ⟨_, _, rfl⟩

/-- C10 witness: on the sample store, stranger 3 fetching profile 1 gets
the redacted view and friend 2 fetching profile 1 gets the full view. -/
theorem profile_redaction_witness :
    getProfile dbFriends 3 1 =
      .ok ({ id := 1, email := none, friendRequests := none,
             sentFriendRequests := none, friends := [2] }, false, false) ∧
    (∃ f o, getProfile dbFriends 2 1 =
      .ok ({ id := 1, email := some "a@x", friendRequests := some [],
             sentFriendRequests := some [], friends := [2] }, f, o)) :=
  ⟨(profile_redaction dbFriends 3 1 uA rfl).1 (by decide) (by decide),
   (profile_redaction dbFriends 2 1 uA rfl).2 (by decide)⟩

/-- C9 (spec-modelled): the post-list visibility filter — the owner
always sees their own posts; a friend of the author sees exactly the
posts tagged public or friends; a non-friend sees exactly the public
ones; a private post never appears to any requester other than its
author. -/
theorem post_visibility (db : DB) (posts : List Post) (requesterId : Nat)
    (p : Post) (author : User)
    (hp : p ∈ posts) (ha : findUser db p.author = some author) :
    (p.author = requesterId → p ∈ postList db posts requesterId) ∧
    (p.author ≠ requesterId → requesterId ∈ author.friends →
      (p ∈ postList db posts requesterId ↔
        (p.visibility = .«public» ∨ p.visibility = .friends))) ∧
    (p.author ≠ requesterId → requesterId ∉ author.friends →
      (p ∈ postList db posts requesterId ↔ p.visibility = .«public»)) ∧
    (p.visibility = .«private» → p.author ≠ requesterId →
      p ∉ postList db posts requesterId) := by
  have hmem : p ∈ postList db posts requesterId ↔
      (p ∈ posts ∧ visibleTo db requesterId p = true) := List.mem_filter
  refine ⟨?_, ?_, ?_, ?_⟩
  · intro hown
    rw [hmem]
    refine ⟨hp, ?_⟩
    unfold visibleTo
    simp [hown]
  · intro hno hf
    rw [hmem]
    unfold visibleTo
    rw [ha]
    simp only [beq_iff_eq, if_neg hno]
    rw [if_pos hf]
    cases hv : p.visibility <;> simp [hp, hv]
  · intro hno hnf
    rw [hmem]
    unfold visibleTo
    rw [ha]
    simp only [beq_iff_eq, if_neg hno]
    rw [if_neg hnf]
    cases hv : p.visibility <;> simp [hp, hv]
  · intro hv hno
    rw [hmem]
    unfold visibleTo
    rw [ha]
    simp only [beq_iff_eq, if_neg hno]
    by_cases hf : requesterId ∈ author.friends
    · rw [if_pos hf]
      simp [hv]
    · rw [if_neg hf]
      simp [hv]

/-- C9 witness: a private post by user 1 in the sample store is visible
to its author and hidden from friend 2 and stranger 3; a friends-tagged
post is visible to friend 2 but not stranger 3. -/
theorem post_visibility_witness :
    ((⟨1, 1, .«private»⟩ : Post) ∈
      postList dbFriends [⟨1, 1, .«private»⟩, ⟨2, 1, .friends⟩] 1) ∧
    ((⟨1, 1, .«private»⟩ : Post) ∉
      postList dbFriends [⟨1, 1, .«private»⟩, ⟨2, 1, .friends⟩] 2) ∧
    ((⟨1, 1, .«private»⟩ : Post) ∉
      postList dbFriends [⟨1, 1, .«private»⟩, ⟨2, 1, .friends⟩] 3) ∧
    ((⟨2, 1, .friends⟩ : Post) ∈
      postList dbFriends [⟨1, 1, .«private»⟩, ⟨2, 1, .friends⟩] 2) ∧
    ((⟨2, 1, .friends⟩ : Post) ∉
      postList dbFriends [⟨1, 1, .«private»⟩, ⟨2, 1, .friends⟩] 3) :=
  ⟨(post_visibility dbFriends [⟨1, 1, .«private»⟩, ⟨2, 1, .friends⟩] 1
      ⟨1, 1, .«private»⟩ uA (by decide) rfl).1 rfl,
   (post_visibility dbFriends [⟨1, 1, .«private»⟩, ⟨2, 1, .friends⟩] 2
      ⟨1, 1, .«private»⟩ uA (by decide) rfl).2.2.2 rfl (by decide),
   (post_visibility dbFriends [⟨1, 1, .«private»⟩, ⟨2, 1, .friends⟩] 3
      ⟨1, 1, .«private»⟩ uA (by decide) rfl).2.2.2 rfl (by decide),
   ((post_visibility dbFriends [⟨1, 1, .«private»⟩, ⟨2, 1, .friends⟩] 2
      ⟨2, 1, .friends⟩ uA (by decide) rfl).2.1 (by decide)
      (by decide)).mpr (Or.inr rfl),
   fun hmem =>
     by
       have h := ((post_visibility dbFriends
           [⟨1, 1, .«private»⟩, ⟨2, 1, .friends⟩] 3 ⟨2, 1, .friends⟩ uA
           (by decide) rfl).2.2.1 (by decide) (by decide)).mp hmem
       cases h⟩

/-! ## C3: unread accounting -/

/-- A sequence of REST sends of the given contents (type `text`, no
attachment), each send acting on the store left by the previous one; a
rejected send leaves the store unchanged. -/
def restSendAll (db : DB) (senderId receiverId : Nat) (contents : List String)
    (now : Nat) : DB :=
  contents.foldl (fun d c =>
    match restSendMessage d senderId receiverId c "text" "" now with
    | .ok (_, d') => d'
    | .error _ => d) db

/-- The message a successful plain-text REST send persists. -/
def sentMsg (db : DB) (senderId receiverId : Nat) (c : String) (now : Nat) : Msg :=
  { id := db.nextMsgId, sender := senderId, receiver := receiverId,
    content := strTrim c, messageType := "text", fileUrl := "",
    isRead := false, readAt := none, createdAt := now }

/-- The store a successful plain-text REST send leaves. -/
def sentDB (db : DB) (senderId receiverId : Nat) (c : String) (now : Nat) : DB :=
  { db with messages := db.messages ++ [sentMsg db senderId receiverId c now],
            nextMsgId := db.nextMsgId + 1 }

/-- A REST send with an existing sender and receiver, permitted
receiver, and valid content succeeds and appends the created message. -/
theorem restSendMessage_ok (db : DB) (senderId receiverId : Nat) (c : String)
    (now : Nat) (su : User)
    (hs : findUser db senderId = some su)
    (hr : (findUser db receiverId).isSome)
    (hf : receiverId ∈ su.friends ∨ receiverId = senderId)
    (hc1 : ¬ strTrim c = "") (hc2 : (strTrim c).data.length ≤ 1000) :
    restSendMessage db senderId receiverId c "text" "" now =
      .ok (sentMsg db senderId receiverId c now,
           sentDB db senderId receiverId c now) := by
  obtain ⟨ru, hru⟩ := Option.isSome_iff_exists.mp hr
  unfold restSendMessage
  simp only
  rw [if_neg (by push_neg; exact ⟨hc1, by omega⟩), hru, hs]
  dsimp only
  rw [if_neg (by tauto)]
  rfl

/-- Sending a list of valid contents from a sender to a permitted
receiver leaves the users untouched and appends messages that are all
from the sender to the receiver and unread. -/
theorem restSendAll_spec (contents : List String) (db : DB)
    (senderId receiverId now : Nat) (su : User)
    (hs : findUser db senderId = some su)
    (hr : (findUser db receiverId).isSome)
    (hf : receiverId ∈ su.friends ∨ receiverId = senderId)
    (hc : ∀ c ∈ contents, ¬ strTrim c = "" ∧ (strTrim c).data.length ≤ 1000) :
    (restSendAll db senderId receiverId contents now).users = db.users ∧
    ∃ newMsgs,
      (restSendAll db senderId receiverId contents now).messages =
        db.messages ++ newMsgs ∧
      ∀ m ∈ newMsgs, m.sender = senderId ∧ m.receiver = receiverId ∧
        m.isRead = false := by
  induction contents generalizing db with
  | nil =>
    exact ⟨rfl, [], by simp [restSendAll], by simp⟩
  | cons c rest ih =>
    have hcc := hc c (by simp)
    have hone := restSendMessage_ok db senderId receiverId c now su hs hr hf
      hcc.1 hcc.2
    have hstep : restSendAll db senderId receiverId (c :: rest) now =
        restSendAll (sentDB db senderId receiverId c now)
          senderId receiverId rest now := by
      unfold restSendAll
      rw [List.foldl_cons, hone]
    have hs1 : findUser (sentDB db senderId receiverId c now) senderId =
        some su := hs
    have hr1 : (findUser (sentDB db senderId receiverId c now)
        receiverId).isSome := hr
    obtain ⟨husers, newMsgs, hmsgs, hnew⟩ :=
      ih (sentDB db senderId receiverId c now) hs1 hr1
        (fun x hx => hc x (by simp [hx]))
    refine ⟨by rw [hstep]; exact husers,
            sentMsg db senderId receiverId c now :: newMsgs, ?_, ?_⟩
    · rw [hstep, hmsgs]
      simp [sentDB]
    · intro m hm
      rcases List.mem_cons.mp hm with hm | hm
      · subst hm
        exact ⟨rfl, rfl, rfl⟩
      · exact hnew m hm

/-- Every message from the counterparty to the current user is read
after the conversation fetch's `updateMany`. -/
theorem markBetweenRead_all_read (msgs : List Msg) (otherId curId now : Nat) :
    ∀ m ∈ markBetweenRead msgs otherId curId now,
      m.sender = otherId → m.receiver = curId → m.isRead = true := by
  intro m hm hsend hrecv
  obtain ⟨x, hx, hfx⟩ := List.mem_map.mp hm
  by_cases hcond : (x.sender == otherId && (x.receiver == curId && !x.isRead)) = true
  · rw [← hfx, if_pos hcond]
  · have hxm : m = x := by rw [← hfx]; exact if_neg hcond
    subst hxm
    by_contra hread
    have hxr : m.isRead = false := by
      revert hread
      cases m.isRead <;> simp
    exact hcond (by simp [hsend, hrecv, hxr])

/-- The fetch's mark-read never unsets a read flag and never changes
sender or receiver. -/
theorem markBetweenRead_pointwise (msgs : List Msg) (otherId curId now : Nat) :
    ∀ m ∈ markBetweenRead msgs otherId curId now,
      ∃ x ∈ msgs, m.sender = x.sender ∧ m.receiver = x.receiver ∧
        (x.isRead = true → m.isRead = true) := by
  intro m hm
  obtain ⟨x, hx, hfx⟩ := List.mem_map.mp hm
  refine ⟨x, hx, ?_⟩
  by_cases hcond : (x.sender == otherId && (x.receiver == curId && !x.isRead)) = true
  · rw [← hfx, if_pos hcond]
    exact ⟨rfl, rfl, fun _ => rfl⟩
  · rw [← hfx, if_neg hcond]
    exact ⟨rfl, rfl, fun h => h⟩

/-- C3: after B sends N messages to A (any N, in particular more than a
page of 50) and A fetches the conversation with B once, every message
from B to A is read, the count of unread messages from B to A is zero,
and if A had no unread messages beforehand the unread-count endpoint
reports zero. -/
theorem unread_accounting (db : DB) (A B : Nat) (userB : User)
    (contents : List String) (page limit now now2 : Nat)
    (hb : findUser db B = some userB)
    (ha : (findUser db A).isSome)
    (hf : A ∈ userB.friends ∨ A = B)
    (hc : ∀ c ∈ contents, ¬ strTrim c = "" ∧ (strTrim c).data.length ≤ 1000) :
    ∃ pageMsgs db2,
      getMessagesBetween (restSendAll db B A contents now) A B page limit now2 =
        .ok (pageMsgs, db2) ∧
      (∀ m ∈ db2.messages, m.sender = B → m.receiver = A → m.isRead = true) ∧
      (db2.messages.filter
        (fun m => m.sender == B && (m.receiver == A && !m.isRead))).length = 0 ∧
      (unreadCountDocs db A = 0 → unreadCountDocs db2 A = 0) := by
  obtain ⟨husers, newMsgs, hmsgs, hnew⟩ :=
    restSendAll_spec contents db B A now userB hb ha hf hc
  set db1 := restSendAll db B A contents now with hdb1
  have hb1 : findUser db1 B = some userB := by
    unfold findUser
    rw [husers]
    exact hb
  have hfetch : getMessagesBetween db1 A B page limit now2 =
      .ok ((((List.insertionSort byNewest (db1.messages.filter (fun m =>
              (m.sender == A && m.receiver == B) ||
              (m.sender == B && m.receiver == A)))).drop
            ((page - 1) * limit)).take limit).reverse,
           { db1 with messages := markBetweenRead db1.messages B A now2 }) := by
    unfold getMessagesBetween
    rw [hb1]
  refine ⟨_, _, hfetch, ?_, ?_, ?_⟩
  · exact markBetweenRead_all_read db1.messages B A now2
  · rw [List.length_eq_zero, List.filter_eq_nil_iff]
    intro m hm hpred
    have hread := markBetweenRead_all_read db1.messages B A now2 m hm
    simp only [Bool.and_eq_true, beq_iff_eq, Bool.not_eq_true'] at hpred
    obtain ⟨hms, hmr, hmu⟩ := hpred
    rw [hread hms hmr] at hmu
    cases hmu
  · intro h0
    have hall : ∀ x ∈ db.messages, x.receiver = A → x.isRead = true := by
      have hnil : db.messages.filter (fun m => m.receiver == A && !m.isRead)
          = [] := List.length_eq_zero.mp h0
      rw [List.filter_eq_nil_iff] at hnil
      intro x hx hrA
      have hxn := hnil x hx
      simp only [Bool.and_eq_true, beq_iff_eq, Bool.not_eq_true', not_and] at hxn
      have := hxn hrA
      revert this
      cases x.isRead <;> simp
    unfold unreadCountDocs
    rw [List.length_eq_zero, List.filter_eq_nil_iff]
    intro m hm hpred
    simp only [Bool.and_eq_true, beq_iff_eq, Bool.not_eq_true'] at hpred
    obtain ⟨hmA, hmu⟩ := hpred
    obtain ⟨x, hx, hsend, hrecv, hmono⟩ :=
      markBetweenRead_pointwise db1.messages B A now2 m hm
    rw [hmsgs] at hx
    rcases List.mem_append.mp hx with hx | hx
    · have hxread : x.isRead = true := hall x hx (by rw [← hrecv, hmA])
      rw [hmono hxread] at hmu
      cases hmu
    · obtain ⟨hxs, hxr, _⟩ := hnew x hx
      have hmarked := markBetweenRead_all_read db1.messages B A now2 m hm
        (by rw [hsend, hxs]) (by rw [hrecv, hxr])
      rw [hmarked] at hmu
      cases hmu

/-- C3 witness: in the two-friend store, user 2 sends 51 messages to
user 1 (one more than the page limit of 50); the fetch marks them all
read and the unread counts are zero. -/
theorem unread_accounting_witness :
    ∃ pageMsgs db2,
      getMessagesBetween
        (restSendAll dbFriends 2 1 (List.replicate 51 "hi") 5) 1 2 1 50 9 =
        .ok (pageMsgs, db2) ∧
      (∀ m ∈ db2.messages, m.sender = 2 → m.receiver = 1 → m.isRead = true) ∧
      (db2.messages.filter
        (fun m => m.sender == 2 && (m.receiver == 1 && !m.isRead))).length = 0 ∧
      (unreadCountDocs dbFriends 1 = 0 → unreadCountDocs db2 1 = 0) :=
  unread_accounting dbFriends 1 2 uB (List.replicate 51 "hi") 1 50 5 9
    rfl (by decide) (by decide) (by decide)

/-! ## C5: message immutability -/

/-- Every operation of the message routes that touches persisted
messages. -/
inductive MsgOp
  | restSend (senderId receiverId : Nat) (content messageType fileUrl : String)
  | socketSend (socketId receiverId : Nat) (content messageType fileUrl : String)
  | fetch (curId otherId page limit : Nat)
  | markRead (requesterId msgId : Nat)
  | delete (requesterId msgId : Nat)
deriving Repr, DecidableEq

/-- Run a message operation; the returned flag is whether the operation
succeeded (a failed operation leaves the store unchanged). -/
def applyMsgOp (s : ServerState) (now : Nat) : MsgOp → ServerState × Bool
  | .restSend senderId receiverId content messageType fileUrl =>
    match restSendMessage s.db senderId receiverId content messageType fileUrl now with
    | .ok (_, db') => ({ s with db := db' }, true)
    | .error _ => (s, false)
  | .socketSend socketId receiverId content messageType fileUrl =>
    ((socketSendMessage s socketId receiverId content messageType fileUrl now).1,
     (socketSendMessage s socketId receiverId content messageType fileUrl now).2.2.success)
  | .fetch curId otherId page limit =>
    match getMessagesBetween s.db curId otherId page limit now with
    | .ok (_, db') => ({ s with db := db' }, true)
    | .error _ => (s, false)
  | .markRead requesterId msgId =>
    match markMessageRead s.db requesterId msgId now with
    | .ok db' => ({ s with db := db' }, true)
    | .error _ => (s, false)
  | .delete requesterId msgId =>
    match deleteMessage s.db requesterId msgId with
    | .ok db' => ({ s with db := db' }, true)
    | .error _ => (s, false)

/-- The per-message change any operation may make: identity, or the
unread-to-read flip stamping the read time. -/
def ReadFlipOnly (now : Nat) (m m' : Msg) : Prop :=
  m'.sender = m.sender ∧ m'.receiver = m.receiver ∧
  m'.content = m.content ∧ m'.messageType = m.messageType ∧
  m'.fileUrl = m.fileUrl ∧ m'.createdAt = m.createdAt ∧
  (m.isRead = true → m'.isRead = true) ∧
  (m' ≠ m → m.isRead = false ∧ m'.isRead = true ∧ m'.readAt = some now)

instance (now : Nat) (m m' : Msg) : Decidable (ReadFlipOnly now m m') := by
  unfold ReadFlipOnly
  infer_instance

/-- C5: with unique, fresh message ids, every message-route operation
leaves each surviving persisted message unchanged except possibly the
one-way unread-to-read transition (stamping the read timestamp), and the
delete operation succeeds only when the requester is the message's
sender. -/
theorem message_immutability (s : ServerState) (now : Nat) (op : MsgOp)
    (hids : (s.db.messages.map Msg.id).Nodup)
    (hfresh : ∀ m ∈ s.db.messages, m.id < s.db.nextMsgId) :
    (∀ m ∈ s.db.messages, ∀ m' ∈ (applyMsgOp s now op).1.db.messages,
      m'.id = m.id → ReadFlipOnly now m m') ∧
    (∀ requesterId msgId, op = .delete requesterId msgId →
      (applyMsgOp s now op).2 = true →
        ∃ m ∈ s.db.messages, m.id = msgId ∧ m.sender = requesterId) := by
  have hinj : ∀ x ∈ s.db.messages, ∀ y ∈ s.db.messages, x.id = y.id → x = y :=
    fun x hx y hy hxy => List.inj_on_of_nodup_map hids hx hy hxy
  have happend : ∀ (new : Msg), new.id = s.db.nextMsgId →
      ∀ m ∈ s.db.messages, ∀ m' ∈ s.db.messages ++ [new],
        m'.id = m.id → ReadFlipOnly now m m' := by
    intro new hnew m hm m' hm' hid
    rcases List.mem_append.mp hm' with hm' | hm'
    · have : m' = m := hinj m' hm' m hm hid
      subst this
      exact ⟨rfl, rfl, rfl, rfl, rfl, rfl, fun h => h, fun h => absurd rfl h⟩
    · rcases List.mem_singleton.mp hm' with rfl
      have := hfresh m hm
      rw [hnew] at hid
      omega
  constructor
  · intro m hm m' hm' hid
    match op with
    | .restSend senderId receiverId content messageType fileUrl =>
      unfold applyMsgOp at hm'
      dsimp only at hm'
      cases hres : restSendMessage s.db senderId receiverId content messageType
          fileUrl now with
      | error e =>
        rw [hres] at hm'
        dsimp only at hm'
        have : m' = m := hinj m' hm' m hm hid
        subst this
        exact ⟨rfl, rfl, rfl, rfl, rfl, rfl, fun h => h, fun h => absurd rfl h⟩
      | ok v =>
        have hshape : restSendMessage s.db senderId receiverId content messageType
            fileUrl now = .ok (v.1, v.2) := by rw [hres]
        unfold restSendMessage at hshape
        revert hshape
        dsimp only
        split
        · intro h
          cases h
        · split
          · intro h
            cases h
          · split
            · intro h
              cases h
            · split
              · intro h
                cases h
              · intro h
                injection h with h1
                rw [hres] at hm'
                dsimp only at hm'
                have hv2 := congrArg Prod.snd h1
                dsimp at hv2
                rw [← hv2] at hm'
                dsimp only at hm'
                exact happend _ rfl m hm m' hm' hid
    | .socketSend socketId receiverId content messageType fileUrl =>
      unfold applyMsgOp at hm'
      dsimp only at hm'
      unfold socketSendMessage at hm'
      revert hm'
      cases hjoin : mapGet s.reg.socketToUser socketId with
      | none =>
        intro hm'
        dsimp only at hm'
        have : m' = m := hinj m' hm' m hm hid
        subst this
        exact ⟨rfl, rfl, rfl, rfl, rfl, rfl, fun h => h, fun h => absurd rfl h⟩
      | some senderId =>
        dsimp only
        split
        · intro hm'
          have : m' = m := hinj m' hm' m hm hid
          subst this
          exact ⟨rfl, rfl, rfl, rfl, rfl, rfl, fun h => h, fun h => absurd rfl h⟩
        · intro hm'
          exact happend _ rfl m hm m' hm' hid
    | .fetch curId otherId page limit =>
      unfold applyMsgOp at hm'
      dsimp only at hm'
      cases hres : getMessagesBetween s.db curId otherId page limit now with
      | error e =>
        rw [hres] at hm'
        dsimp only at hm'
        have : m' = m := hinj m' hm' m hm hid
        subst this
        exact ⟨rfl, rfl, rfl, rfl, rfl, rfl, fun h => h, fun h => absurd rfl h⟩
      | ok v =>
        have hv : v.2.messages = markBetweenRead s.db.messages otherId curId now := by
          have hshape := hres
          unfold getMessagesBetween at hshape
          revert hshape
          split
          · intro h
            cases h
          · intro h
            injection h with h1
            have := congrArg Prod.snd h1
            rw [← this]
        rw [hres] at hm'
        dsimp only at hm'
        rw [hv] at hm'
        obtain ⟨x, hx, hfx⟩ := List.mem_map.mp hm'
        have hxid : x.id = m.id := by
          rw [← hid, ← hfx]
          by_cases hcond : (x.sender == otherId && (x.receiver == curId && !x.isRead)) = true
          · rw [if_pos hcond]
          · rw [if_neg hcond]
        have hxm : x = m := hinj x hx m hm hxid
        subst hxm
        rw [← hfx]
        by_cases hcond : (x.sender == otherId && (x.receiver == curId && !x.isRead)) = true
        · rw [if_pos hcond]
          simp only [Bool.and_eq_true, beq_iff_eq, Bool.not_eq_true'] at hcond
          exact ⟨rfl, rfl, rfl, rfl, rfl, rfl, fun _ => rfl,
                 fun _ => ⟨hcond.2.2, rfl, rfl⟩⟩
        · rw [if_neg hcond]
          exact ⟨rfl, rfl, rfl, rfl, rfl, rfl, fun h => h, fun h => absurd rfl h⟩
    | .markRead requesterId msgId =>
      unfold applyMsgOp at hm'
      dsimp only at hm'
      cases hres : markMessageRead s.db requesterId msgId now with
      | error e =>
        rw [hres] at hm'
        dsimp only at hm'
        have : m' = m := hinj m' hm' m hm hid
        subst this
        exact ⟨rfl, rfl, rfl, rfl, rfl, rfl, fun h => h, fun h => absurd rfl h⟩
      | ok db' =>
        rw [hres] at hm'
        dsimp only at hm'
        have hshape := hres
        unfold markMessageRead at hshape
        revert hshape
        cases hfind : findMsg s.db msgId with
        | none =>
          intro h
          cases h
        | some m0 =>
          dsimp only
          split
          · intro h
            cases h
          · split
            · intro h
              injection h with h1
              rw [← h1] at hm'
              dsimp only at hm'
              obtain ⟨x, hx, hfx⟩ := List.mem_map.mp hm'
              have hxid : x.id = m.id := by
                rw [← hid, ← hfx]
                by_cases hcond : (x.id == msgId) = true
                · rw [if_pos hcond]
                · rw [if_neg hcond]
              have hxm : x = m := hinj x hx m hm hxid
              subst hxm
              rw [← hfx]
              by_cases hcond : (x.id == msgId) = true
              · rw [if_pos hcond]
                have hm0 : m0 = x := by
                  apply hinj m0 (List.mem_of_find?_eq_some hfind) x hx
                  have h1 := List.find?_some hfind
                  have h2 : m0.id = msgId := by simpa using h1
                  have h3 : x.id = msgId := by simpa using hcond
                  rw [h2, h3]
                next hunread =>
                  rw [hm0] at hunread
                  have hxu : x.isRead = false := by
                    revert hunread
                    cases x.isRead <;> simp
                  exact ⟨rfl, rfl, rfl, rfl, rfl, rfl, fun _ => rfl,
                         fun _ => ⟨hxu, rfl, rfl⟩⟩
              · rw [if_neg hcond]
                exact ⟨rfl, rfl, rfl, rfl, rfl, rfl, fun h => h,
                       fun h => absurd rfl h⟩
            · intro h
              injection h with h1
              rw [← h1] at hm'
              have : m' = m := hinj m' hm' m hm hid
              subst this
              exact ⟨rfl, rfl, rfl, rfl, rfl, rfl, fun h => h,
                     fun h => absurd rfl h⟩
    | .delete requesterId msgId =>
      unfold applyMsgOp at hm'
      dsimp only at hm'
      cases hres : deleteMessage s.db requesterId msgId with
      | error e =>
        rw [hres] at hm'
        dsimp only at hm'
        have : m' = m := hinj m' hm' m hm hid
        subst this
        exact ⟨rfl, rfl, rfl, rfl, rfl, rfl, fun h => h, fun h => absurd rfl h⟩
      | ok db' =>
        rw [hres] at hm'
        dsimp only at hm'
        have hdb' : db'.messages = s.db.messages.filter (fun x => x.id != msgId) := by
          have hshape := hres
          unfold deleteMessage at hshape
          revert hshape
          cases findMsg s.db msgId with
          | none =>
            intro h
            cases h
          | some m0 =>
            dsimp only
            split
            · intro h
              cases h
            · intro h
              injection h with h1
              rw [← h1]
        rw [hdb'] at hm'
        have : m' = m := hinj m' (List.mem_of_mem_filter hm') m hm hid
        subst this
        exact ⟨rfl, rfl, rfl, rfl, rfl, rfl, fun h => h, fun h => absurd rfl h⟩
  · intro requesterId msgId hop hsucc
    subst hop
    unfold applyMsgOp at hsucc
    dsimp only at hsucc
    revert hsucc
    cases hres : deleteMessage s.db requesterId msgId with
    | error e =>
      intro h
      cases h
    | ok db' =>
      intro _
      have hshape := hres
      unfold deleteMessage at hshape
      revert hshape
      cases hfind : findMsg s.db msgId with
      | none =>
        intro h
        cases h
      | some m0 =>
        dsimp only
        split
        · intro h
          cases h
        · next hsender =>
          intro _
          refine ⟨m0, List.mem_of_find?_eq_some hfind, ?_, ?_⟩
          · simpa using List.find?_some hfind
          · by_contra hne
            exact hsender (by simpa using hne)

/-- C5 witness: on a store with one unread message (id 1) from user 2 to
user 1, the receiver's mark-read operation satisfies the immutability
property. -/
theorem message_immutability_witness :
    (∀ m ∈ ({ users := [uA, uB],
              messages := [{ id := 1, sender := 2, receiver := 1, content := "hi",
                             messageType := "text", fileUrl := "", isRead := false,
                             readAt := none, createdAt := 4 }],
              nextMsgId := 2 } : DB).messages,
      ∀ m' ∈ (applyMsgOp
          { db := { users := [uA, uB],
                    messages := [{ id := 1, sender := 2, receiver := 1,
                                   content := "hi", messageType := "text",
                                   fileUrl := "", isRead := false, readAt := none,
                                   createdAt := 4 }],
                    nextMsgId := 2 },
            reg := Registry.empty } 9 (.markRead 1 1)).1.db.messages,
        m'.id = m.id → ReadFlipOnly 9 m m') ∧
    (∀ requesterId msgId, (MsgOp.markRead 1 1) = .delete requesterId msgId →
      (applyMsgOp
          { db := { users := [uA, uB],
                    messages := [{ id := 1, sender := 2, receiver := 1,
                                   content := "hi", messageType := "text",
                                   fileUrl := "", isRead := false, readAt := none,
                                   createdAt := 4 }],
                    nextMsgId := 2 },
            reg := Registry.empty } 9 (.markRead 1 1)).2 = true →
        ∃ m ∈ ({ users := [uA, uB],
                 messages := [{ id := 1, sender := 2, receiver := 1, content := "hi",
                                messageType := "text", fileUrl := "", isRead := false,
                                readAt := none, createdAt := 4 }],
                 nextMsgId := 2 } : DB).messages,
          m.id = msgId ∧ m.sender = requesterId) :=
  message_immutability
    { db := { users := [uA, uB],
              messages := [{ id := 1, sender := 2, receiver := 1, content := "hi",
                             messageType := "text", fileUrl := "", isRead := false,
                             readAt := none, createdAt := 4 }],
              nextMsgId := 2 },
      reg := Registry.empty } 9 (.markRead 1 1) (by decide) (by decide)

/-! ## Friend-route lemmas -/

theorem findUser_mem (db : DB) (i : Nat) (u : User)
    (h : findUser db i = some u) : u ∈ db.users ∧ u.id = i := by
  refine ⟨List.mem_of_find?_eq_some h, ?_⟩
  simpa using List.find?_some h

theorem mem_addToSet (l : List Nat) (y x : Nat) :
    x ∈ addToSet l y ↔ (x ∈ l ∨ x = y) := by
  unfold addToSet
  by_cases hy : y ∈ l
  · rw [if_pos hy]
    constructor
    · exact Or.inl
    · rintro (h | rfl)
      · exact h
      · exact hy
  · rw [if_neg hy]
    simp

theorem any_toId_iff (l : List ToReq) (i : Nat) :
    l.any (fun r => r.toId == i) = true ↔ (∃ r ∈ l, r.toId = i) := by
  simp [List.any_eq_true]

theorem any_fromId_iff (l : List FromReq) (i : Nat) :
    l.any (fun r => r.fromId == i) = true ↔ (∃ r ∈ l, r.fromId = i) := by
  simp [List.any_eq_true]

theorem exists_toId_append (l : List ToReq) (t now x : Nat) :
    (∃ r ∈ l ++ [{ toId := t, createdAt := now : ToReq }], r.toId = x) ↔
      ((∃ r ∈ l, r.toId = x) ∨ x = t) := by
  constructor
  · rintro ⟨r, hr, hx⟩
    rcases List.mem_append.mp hr with h | h
    · exact Or.inl ⟨r, h, hx⟩
    · rw [List.mem_singleton.mp h] at hx
      exact Or.inr hx.symm
  · rintro (⟨r, hr, hx⟩ | rfl)
    · exact ⟨r, List.mem_append.mpr (Or.inl hr), hx⟩
    · exact ⟨{ toId := x, createdAt := now }, by simp, rfl⟩

theorem exists_fromId_append (l : List FromReq) (t now x : Nat) :
    (∃ r ∈ l ++ [{ fromId := t, createdAt := now : FromReq }], r.fromId = x) ↔
      ((∃ r ∈ l, r.fromId = x) ∨ x = t) := by
  constructor
  · rintro ⟨r, hr, hx⟩
    rcases List.mem_append.mp hr with h | h
    · exact Or.inl ⟨r, h, hx⟩
    · rw [List.mem_singleton.mp h] at hx
      exact Or.inr hx.symm
  · rintro (⟨r, hr, hx⟩ | rfl)
    · exact ⟨r, List.mem_append.mpr (Or.inl hr), hx⟩
    · exact ⟨{ fromId := x, createdAt := now }, by simp, rfl⟩

theorem exists_toId_filter (l : List ToReq) (c x : Nat) :
    (∃ r ∈ l.filter (fun r => r.toId != c), r.toId = x) ↔
      ((∃ r ∈ l, r.toId = x) ∧ x ≠ c) := by
  constructor
  · rintro ⟨r, hr, hx⟩
    obtain ⟨hmem, hne⟩ := List.mem_filter.mp hr
    simp only [bne_iff_ne, ne_eq] at hne
    exact ⟨⟨r, hmem, hx⟩, by rw [← hx]; exact hne⟩
  · rintro ⟨⟨r, hr, hx⟩, hne⟩
    exact ⟨r, List.mem_filter.mpr ⟨hr, by simp [hx, hne]⟩, hx⟩

theorem exists_fromId_filter (l : List FromReq) (c x : Nat) :
    (∃ r ∈ l.filter (fun r => r.fromId != c), r.fromId = x) ↔
      ((∃ r ∈ l, r.fromId = x) ∧ x ≠ c) := by
  constructor
  · rintro ⟨r, hr, hx⟩
    obtain ⟨hmem, hne⟩ := List.mem_filter.mp hr
    simp only [bne_iff_ne, ne_eq] at hne
    exact ⟨⟨r, hmem, hx⟩, by rw [← hx]; exact hne⟩
  · rintro ⟨⟨r, hr, hx⟩, hne⟩
    exact ⟨r, List.mem_filter.mpr ⟨hr, by simp [hx, hne]⟩, hx⟩

/-- The two sequential `findByIdAndUpdate`s of a friend operation, as one
map over the users (the two ids being distinct and the first update
preserving the id). -/
theorem updateUser₂_users (db : DB) (id1 id2 : Nat) (f1 f2 : User → User)
    (hne : id1 ≠ id2) (hf1 : ∀ u, (f1 u).id = u.id) :
    (updateUser (updateUser db id1 f1) id2 f2).users =
      db.users.map (fun u =>
        if u.id = id1 then f1 u else if u.id = id2 then f2 u else u) := by
  unfold updateUser
  simp only
  rw [List.map_map]
  apply List.map_congr_left
  intro u _
  simp only [Function.comp]
  by_cases h1 : u.id = id1
  · rw [if_pos (show (u.id == id1) = true by simpa using h1)]
    have hcond : ¬ ((f1 u).id == id2) = true := by
      simp only [hf1 u, h1, beq_iff_eq]
      exact hne
    rw [if_neg hcond, if_pos h1]
  · rw [if_neg (show ¬ (u.id == id1) = true by simpa using h1), if_neg h1]
    by_cases h2 : u.id = id2
    · rw [if_pos (show (u.id == id2) = true by simpa using h2), if_pos h2]
    · rw [if_neg (show ¬ (u.id == id2) = true by simpa using h2), if_neg h2]

/-- Unique-id lookup: two users with the same id are the same user. -/
theorem users_id_inj (db : DB) (h : (db.users.map User.id).Nodup) :
    ∀ x ∈ db.users, ∀ y ∈ db.users, x.id = y.id → x = y :=
  fun x hx y hy hxy => List.inj_on_of_nodup_map h hx hy hxy

/-- `find?` by id through an id-preserving map. -/
theorem find?_id_map (l : List User) (G : User → User)
    (hGid : ∀ u, (G u).id = u.id) (i : Nat) :
    List.find? (fun u => u.id == i) (l.map G) =
      (List.find? (fun u => u.id == i) l).map G := by
  have hpred : ((fun u : User => u.id == i) ∘ G) = (fun u : User => u.id == i) := by
    funext u
    simp only [Function.comp, hGid u]
  rw [List.find?_map, hpred]

/-- Everything a successful friend-request send implies: the guards that
were passed and the exact result store. -/
theorem sendFriendRequest_ok_elim (db : DB) (cur target now : Nat) (db' : DB)
    (hok : sendFriendRequest db cur target now = .ok db') :
    ∃ tu cu, target ≠ cur ∧ findUser db target = some tu ∧
      findUser db cur = some cu ∧ target ∉ cu.friends ∧
      ¬ sentTo cu target ∧ ¬ reqFrom cu target ∧
      db'.users = db.users.map (fun u =>
        if u.id = cur then
          { u with sentFriendRequests :=
              u.sentFriendRequests ++ [{ toId := target, createdAt := now }] }
        else if u.id = target then
          { u with friendRequests :=
              u.friendRequests ++ [{ fromId := cur, createdAt := now }] }
        else u) := by
  unfold sendFriendRequest at hok
  by_cases h1 : target = cur
  · rw [if_pos h1] at hok
    cases hok
  rw [if_neg h1] at hok
  cases htu : findUser db target with
  | none =>
    rw [htu] at hok
    cases hok
  | some tu =>
  rw [htu] at hok
  dsimp only at hok
  cases hcu : findUser db cur with
  | none =>
    rw [hcu] at hok
    cases hok
  | some cu =>
  rw [hcu] at hok
  dsimp only at hok
  by_cases h2 : target ∈ cu.friends
  · rw [if_pos h2] at hok
    cases hok
  rw [if_neg h2] at hok
  by_cases h3 : (cu.sentFriendRequests.any (fun r => r.toId == target)) = true
  · rw [if_pos h3] at hok
    cases hok
  rw [if_neg h3] at hok
  by_cases h4 : (cu.friendRequests.any (fun r => r.fromId == target)) = true
  · rw [if_pos h4] at hok
    cases hok
  rw [if_neg h4] at hok
  injection hok with hok
  refine ⟨tu, cu, h1, rfl, rfl, h2,
          fun hs => h3 ((any_toId_iff _ _).mpr hs),
          fun hr => h4 ((any_fromId_iff _ _).mpr hr), ?_⟩
  rw [← hok]
  exact updateUser₂_users db cur target _ _ (fun hh => h1 hh.symm) (fun u => rfl)

/-- A successful friend-request send preserves the relationship
invariant. -/
theorem sendFriendRequest_inv (db : DB) (cur target now : Nat) (db' : DB)
    (hInv : Inv db) (hok : sendFriendRequest db cur target now = .ok db') :
    Inv db' := by
  obtain ⟨hnodup, hsym, hmirror, hmutex, hnodual, hnoself⟩ := hInv
  obtain ⟨tu, cu, h1, htu, hcu, h2, h3, h4, husers⟩ :=
    sendFriendRequest_ok_elim db cur target now db' hok
  obtain ⟨hcumem, hcuid⟩ := findUser_mem db cur cu hcu
  obtain ⟨htumem, htuid⟩ := findUser_mem db target tu htu
  have hinj := users_id_inj db hnodup
  set G : User → User := fun u =>
    if u.id = cur then
      { u with sentFriendRequests :=
          u.sentFriendRequests ++ [{ toId := target, createdAt := now }] }
    else if u.id = target then
      { u with friendRequests :=
          u.friendRequests ++ [{ fromId := cur, createdAt := now }] }
    else u with hG
  have hGid : ∀ u, (G u).id = u.id := by
    intro u
    rw [hG]
    dsimp only
    split_ifs <;> rfl
  have hGfriends : ∀ u, (G u).friends = u.friends := by
    intro u
    rw [hG]
    dsimp only
    split_ifs <;> rfl
  have hGsent : ∀ u x, sentTo (G u) x ↔
      (sentTo u x ∨ (u.id = cur ∧ x = target)) := by
    intro u x
    rw [hG]
    dsimp only
    unfold sentTo
    split_ifs with hc ht
    · dsimp only
      rw [exists_toId_append]
      constructor
      · rintro (hp | hx)
        · exact Or.inl hp
        · exact Or.inr ⟨hc, hx⟩
      · rintro (hp | ⟨h5, hx⟩)
        · exact Or.inl hp
        · exact Or.inr hx
    · dsimp only
      constructor
      · exact Or.inl
      · rintro (hp | ⟨h5, hx⟩)
        · exact hp
        · exact absurd h5 hc
    · constructor
      · exact Or.inl
      · rintro (hp | ⟨h5, hx⟩)
        · exact hp
        · exact absurd h5 hc
  have hGreq : ∀ u x, reqFrom (G u) x ↔
      (reqFrom u x ∨ (u.id = target ∧ x = cur)) := by
    intro u x
    rw [hG]
    dsimp only
    unfold reqFrom
    split_ifs with hc ht
    · dsimp only
      have hnt : ¬ u.id = target := by rw [hc]; exact fun hh => h1 hh.symm
      constructor
      · exact Or.inl
      · rintro (hp | ⟨h5, hx⟩)
        · exact hp
        · exact absurd h5 hnt
    · dsimp only
      rw [exists_fromId_append]
      constructor
      · rintro (hp | hx)
        · exact Or.inl hp
        · exact Or.inr ⟨ht, hx⟩
      · rintro (hp | ⟨h5, hx⟩)
        · exact Or.inl hp
        · exact Or.inr hx
    · constructor
      · exact Or.inl
      · rintro (hp | ⟨h5, hx⟩)
        · exact hp
        · exact absurd h5 ht
  refine ⟨?_, ?_, ?_, ?_, ?_, ?_⟩
  · rw [husers, List.map_map]
    have : (User.id ∘ G) = User.id := funext fun u => hGid u
    rw [this]
    exact hnodup
  · intro u' hu' v' hv'
    rw [husers] at hu' hv'
    obtain ⟨u, hu, rfl⟩ := List.mem_map.mp hu'
    obtain ⟨v, hv, rfl⟩ := List.mem_map.mp hv'
    rw [hGfriends, hGfriends, hGid, hGid]
    exact hsym u hu v hv
  · intro u' hu' v' hv'
    rw [husers] at hu' hv'
    obtain ⟨u, hu, rfl⟩ := List.mem_map.mp hu'
    obtain ⟨v, hv, rfl⟩ := List.mem_map.mp hv'
    rw [hGid, hGid, hGsent, hGreq]
    have hm := hmirror u hu v hv
    constructor
    · rintro (hs | ⟨huc, hvt⟩)
      · exact Or.inl (hm.mp hs)
      · exact Or.inr ⟨hvt, huc⟩
    · rintro (hr | ⟨hvt, huc⟩)
      · exact Or.inl (hm.mpr hr)
      · exact Or.inr ⟨huc, hvt⟩
  · intro u' hu' v' hv' hsent
    rw [husers] at hu' hv'
    obtain ⟨u, hu, rfl⟩ := List.mem_map.mp hu'
    obtain ⟨v, hv, rfl⟩ := List.mem_map.mp hv'
    rw [hGid] at hsent
    rw [hGid, hGfriends]
    rcases (hGsent u v.id).mp hsent with hs | ⟨huc, hvt⟩
    · exact hmutex u hu v hv hs
    · have hucu : u = cu := hinj u hu cu hcumem (by rw [huc, hcuid])
      rw [hvt, hucu]
      exact h2
  · intro u' hu' v' hv' hsent hsent2
    rw [husers] at hu' hv'
    obtain ⟨u, hu, rfl⟩ := List.mem_map.mp hu'
    obtain ⟨v, hv, rfl⟩ := List.mem_map.mp hv'
    rw [hGid] at hsent
    rw [hGid] at hsent2
    have hcontra : ∀ w ∈ db.users, w.id = target → ¬ sentTo w cur := by
      intro w hw hwid hws
      have hwtu : w = tu := hinj w hw tu htumem (by rw [hwid, htuid])
      have : reqFrom cu w.id := (hmirror w hw cu hcumem).mp
        (by rw [hcuid]; exact hws)
      rw [hwid] at this
      exact h4 this
    rcases (hGsent u v.id).mp hsent with hs | ⟨huc, hvt⟩
    · rcases (hGsent v u.id).mp hsent2 with hs2 | ⟨hvc, hut⟩
      · exact hnodual u hu v hv hs hs2
      · rw [hvc] at hs
        exact hcontra u hu hut hs
    · rcases (hGsent v u.id).mp hsent2 with hs2 | ⟨hvc, hut⟩
      · rw [huc] at hs2
        exact hcontra v hv hvt hs2
      · rw [hvt] at hvc
        exact h1 hvc
  · intro u' hu'
    rw [husers] at hu'
    obtain ⟨u, hu, rfl⟩ := List.mem_map.mp hu'
    rw [hGfriends, hGid]
    exact hnoself u hu

/-- Everything a successful accept implies: the guards that were passed
and the exact result store. -/
theorem acceptFriendRequest_ok_elim (db : DB) (cur sender : Nat) (db' : DB)
    (hok : acceptFriendRequest db cur sender = .ok db') :
    ∃ su cu, findUser db sender = some su ∧ findUser db cur = some cu ∧
      reqFrom cu sender ∧
      db' = updateUser
        (updateUser db cur (fun u =>
          { u with
            friendRequests := u.friendRequests.filter (fun r => r.fromId != sender)
            friends := addToSet u.friends sender }))
        sender (fun u =>
          { u with
            sentFriendRequests := u.sentFriendRequests.filter (fun r => r.toId != cur)
            friends := addToSet u.friends cur }) := by
  unfold acceptFriendRequest at hok
  cases hsu : findUser db sender with
  | none =>
    rw [hsu] at hok
    cases hok
  | some su =>
  rw [hsu] at hok
  dsimp only at hok
  cases hcu : findUser db cur with
  | none =>
    rw [hcu] at hok
    cases hok
  | some cu =>
  rw [hcu] at hok
  dsimp only at hok
  by_cases hreq : (cu.friendRequests.any (fun r => r.fromId == sender)) = true
  · rw [if_pos hreq] at hok
    injection hok with hok
    exact ⟨su, cu, rfl, rfl, (any_fromId_iff _ _).mp hreq, hok.symm⟩
  · rw [if_neg hreq] at hok
    cases hok

/-- A successful accept preserves the relationship invariant. -/
theorem acceptFriendRequest_inv (db : DB) (cur sender : Nat) (db' : DB)
    (hInv : Inv db) (hok : acceptFriendRequest db cur sender = .ok db') :
    Inv db' := by
  obtain ⟨hnodup, hsym, hmirror, hmutex, hnodual, hnoself⟩ := hInv
  obtain ⟨su, cu, hsu, hcu, hreq, hdb'⟩ :=
    acceptFriendRequest_ok_elim db cur sender db' hok
  obtain ⟨hsumem, hsuid⟩ := findUser_mem db sender su hsu
  obtain ⟨hcumem, hcuid⟩ := findUser_mem db cur cu hcu
  have hinj := users_id_inj db hnodup
  have hsc : sentTo su cu.id := (hmirror su hsumem cu hcumem).mpr
    (by rw [hsuid]; exact hreq)
  have hne : cur ≠ sender := by
    intro h
    have hsame : su = cu := hinj su hsumem cu hcumem (by rw [hsuid, hcuid, h])
    rw [hsame] at hsc
    exact hnodual cu hcumem cu hcumem hsc hsc
  set G : User → User := fun u =>
    if u.id = cur then
      { u with
        friendRequests := u.friendRequests.filter (fun r => r.fromId != sender)
        friends := addToSet u.friends sender }
    else if u.id = sender then
      { u with
        sentFriendRequests := u.sentFriendRequests.filter (fun r => r.toId != cur)
        friends := addToSet u.friends cur }
    else u with hG
  have husers : db'.users = db.users.map G := by
    rw [hdb']
    exact updateUser₂_users db cur sender _ _ hne (fun u => rfl)
  have hGid : ∀ u, (G u).id = u.id := by
    intro u
    rw [hG]
    dsimp only
    split_ifs <;> rfl
  have hGsent : ∀ u x, sentTo (G u) x ↔
      (sentTo u x ∧ (u.id = sender → x ≠ cur)) := by
    intro u x
    rw [hG]
    dsimp only
    unfold sentTo
    split_ifs with hc ht
    · constructor
      · intro hp
        refine ⟨hp, fun h5 => ?_⟩
        rw [hc] at h5
        exact absurd h5 hne
      · exact fun hp => hp.1
    · rw [exists_toId_filter]
      constructor
      · exact fun hp => ⟨hp.1, fun _ => hp.2⟩
      · exact fun hp => ⟨hp.1, hp.2 ht⟩
    · constructor
      · exact fun hp => ⟨hp, fun h5 => absurd h5 ht⟩
      · exact fun hp => hp.1
  have hGreq : ∀ u x, reqFrom (G u) x ↔
      (reqFrom u x ∧ (u.id = cur → x ≠ sender)) := by
    intro u x
    rw [hG]
    dsimp only
    unfold reqFrom
    split_ifs with hc ht
    · rw [exists_fromId_filter]
      constructor
      · exact fun hp => ⟨hp.1, fun _ => hp.2⟩
      · exact fun hp => ⟨hp.1, hp.2 hc⟩
    · constructor
      · intro hp
        refine ⟨hp, fun h5 => ?_⟩
        rw [ht] at h5
        exact absurd h5.symm hne
      · exact fun hp => hp.1
    · constructor
      · exact fun hp => ⟨hp, fun h5 => absurd h5 hc⟩
      · exact fun hp => hp.1
  have hGfriends : ∀ u x, x ∈ (G u).friends ↔
      (x ∈ u.friends ∨ (u.id = cur ∧ x = sender) ∨ (u.id = sender ∧ x = cur)) := by
    intro u x
    rw [hG]
    dsimp only
    split_ifs with hc ht
    · rw [mem_addToSet]
      constructor
      · rintro (hm | hx)
        · exact Or.inl hm
        · exact Or.inr (Or.inl ⟨hc, hx⟩)
      · rintro (hm | ⟨h5, hx⟩ | ⟨h5, hx⟩)
        · exact Or.inl hm
        · exact Or.inr hx
        · rw [hc] at h5
          exact absurd h5 hne
    · rw [mem_addToSet]
      constructor
      · rintro (hm | hx)
        · exact Or.inl hm
        · exact Or.inr (Or.inr ⟨ht, hx⟩)
      · rintro (hm | ⟨h5, hx⟩ | ⟨h5, hx⟩)
        · exact Or.inl hm
        · exact absurd h5 hc
        · exact Or.inr hx
    · constructor
      · exact fun hm => Or.inl hm
      · rintro (hm | ⟨h5, hx⟩ | ⟨h5, hx⟩)
        · exact hm
        · exact absurd h5 hc
        · exact absurd h5 ht
  refine ⟨?_, ?_, ?_, ?_, ?_, ?_⟩
  · rw [husers, List.map_map]
    have : (User.id ∘ G) = User.id := funext fun u => hGid u
    rw [this]
    exact hnodup
  · intro u' hu' v' hv'
    rw [husers] at hu' hv'
    obtain ⟨u, hu, rfl⟩ := List.mem_map.mp hu'
    obtain ⟨v, hv, rfl⟩ := List.mem_map.mp hv'
    rw [hGid, hGid, hGfriends, hGfriends]
    have := hsym u hu v hv
    tauto
  · intro u' hu' v' hv'
    rw [husers] at hu' hv'
    obtain ⟨u, hu, rfl⟩ := List.mem_map.mp hu'
    obtain ⟨v, hv, rfl⟩ := List.mem_map.mp hv'
    rw [hGid, hGid, hGsent, hGreq]
    have := hmirror u hu v hv
    constructor
    · rintro ⟨hs, hside⟩
      refine ⟨this.mp hs, fun hvc hus => ?_⟩
      exact hside hus hvc
    · rintro ⟨hr, hside⟩
      refine ⟨this.mpr hr, fun hus hvc => ?_⟩
      exact hside hvc hus
  · intro u' hu' v' hv' hsent
    rw [husers] at hu' hv'
    obtain ⟨u, hu, rfl⟩ := List.mem_map.mp hu'
    obtain ⟨v, hv, rfl⟩ := List.mem_map.mp hv'
    rw [hGid] at hsent
    rw [hGid, hGfriends]
    obtain ⟨hs, hside⟩ := (hGsent u v.id).mp hsent
    rintro (hm | ⟨huc, hvs⟩ | ⟨hus, hvc⟩)
    · exact hmutex u hu v hv hs hm
    · have hucu : u = cu := hinj u hu cu hcumem (by rw [huc, hcuid])
      have : ¬ sentTo cu su.id := hnodual su hsumem cu hcumem hsc
      rw [hsuid] at this
      rw [hucu, hvs] at hs
      exact this hs
    · exact hside hus hvc
  · intro u' hu' v' hv' hsent hsent2
    rw [husers] at hu' hv'
    obtain ⟨u, hu, rfl⟩ := List.mem_map.mp hu'
    obtain ⟨v, hv, rfl⟩ := List.mem_map.mp hv'
    rw [hGid] at hsent
    rw [hGid] at hsent2
    obtain ⟨hs, _⟩ := (hGsent u v.id).mp hsent
    obtain ⟨hs2, _⟩ := (hGsent v u.id).mp hsent2
    exact hnodual u hu v hv hs hs2
  · intro u' hu'
    rw [husers] at hu'
    obtain ⟨u, hu, rfl⟩ := List.mem_map.mp hu'
    rw [hGid, hGfriends]
    rintro (hm | ⟨h5, hx⟩ | ⟨h5, hx⟩)
    · exact hnoself u hu hm
    · rw [h5] at hx
      exact hne hx
    · rw [h5] at hx
      exact hne hx.symm
  
/-- Everything a successful decline implies. -/
theorem declineFriendRequest_ok_elim (db : DB) (cur sender : Nat) (db' : DB)
    (hok : declineFriendRequest db cur sender = .ok db') :
    ∃ su cu, findUser db sender = some su ∧ findUser db cur = some cu ∧
      reqFrom cu sender ∧
      db' = updateUser
        (updateUser db cur (fun u =>
          { u with friendRequests :=
              u.friendRequests.filter (fun r => r.fromId != sender) }))
        sender (fun u =>
          { u with sentFriendRequests :=
              u.sentFriendRequests.filter (fun r => r.toId != cur) }) := by
  unfold declineFriendRequest at hok
  cases hsu : findUser db sender with
  | none =>
    rw [hsu] at hok
    cases hok
  | some su =>
  rw [hsu] at hok
  dsimp only at hok
  cases hcu : findUser db cur with
  | none =>
    rw [hcu] at hok
    cases hok
  | some cu =>
  rw [hcu] at hok
  dsimp only at hok
  by_cases hreq : (cu.friendRequests.any (fun r => r.fromId == sender)) = true
  · rw [if_pos hreq] at hok
    injection hok with hok
    exact ⟨su, cu, rfl, rfl, (any_fromId_iff _ _).mp hreq, hok.symm⟩
  · rw [if_neg hreq] at hok
    cases hok

/-- A successful decline preserves the relationship invariant. -/
theorem declineFriendRequest_inv (db : DB) (cur sender : Nat) (db' : DB)
    (hInv : Inv db) (hok : declineFriendRequest db cur sender = .ok db') :
    Inv db' := by
  obtain ⟨hnodup, hsym, hmirror, hmutex, hnodual, hnoself⟩ := hInv
  obtain ⟨su, cu, hsu, hcu, hreq, hdb'⟩ :=
    declineFriendRequest_ok_elim db cur sender db' hok
  obtain ⟨hsumem, hsuid⟩ := findUser_mem db sender su hsu
  obtain ⟨hcumem, hcuid⟩ := findUser_mem db cur cu hcu
  have hinj := users_id_inj db hnodup
  have hsc : sentTo su cu.id := (hmirror su hsumem cu hcumem).mpr
    (by rw [hsuid]; exact hreq)
  have hne : cur ≠ sender := by
    intro h
    have hsame : su = cu := hinj su hsumem cu hcumem (by rw [hsuid, hcuid, h])
    rw [hsame] at hsc
    exact hnodual cu hcumem cu hcumem hsc hsc
  set G : User → User := fun u =>
    if u.id = cur then
      { u with friendRequests :=
          u.friendRequests.filter (fun r => r.fromId != sender) }
    else if u.id = sender then
      { u with sentFriendRequests :=
          u.sentFriendRequests.filter (fun r => r.toId != cur) }
    else u with hG
  have husers : db'.users = db.users.map G := by
    rw [hdb']
    exact updateUser₂_users db cur sender _ _ hne (fun u => rfl)
  have hGid : ∀ u, (G u).id = u.id := by
    intro u
    rw [hG]
    dsimp only
    split_ifs <;> rfl
  have hGfriends : ∀ u, (G u).friends = u.friends := by
    intro u
    rw [hG]
    dsimp only
    split_ifs <;> rfl
  have hGsent : ∀ u x, sentTo (G u) x ↔
      (sentTo u x ∧ (u.id = sender → x ≠ cur)) := by
    intro u x
    rw [hG]
    dsimp only
    unfold sentTo
    split_ifs with hc ht
    · constructor
      · intro hp
        refine ⟨hp, fun h5 => ?_⟩
        rw [hc] at h5
        exact absurd h5 hne
      · exact fun hp => hp.1
    · rw [exists_toId_filter]
      constructor
      · exact fun hp => ⟨hp.1, fun _ => hp.2⟩
      · exact fun hp => ⟨hp.1, hp.2 ht⟩
    · constructor
      · exact fun hp => ⟨hp, fun h5 => absurd h5 ht⟩
      · exact fun hp => hp.1
  have hGreq : ∀ u x, reqFrom (G u) x ↔
      (reqFrom u x ∧ (u.id = cur → x ≠ sender)) := by
    intro u x
    rw [hG]
    dsimp only
    unfold reqFrom
    split_ifs with hc ht
    · rw [exists_fromId_filter]
      constructor
      · exact fun hp => ⟨hp.1, fun _ => hp.2⟩
      · exact fun hp => ⟨hp.1, hp.2 hc⟩
    · constructor
      · intro hp
        refine ⟨hp, fun h5 => ?_⟩
        rw [ht] at h5
        exact absurd h5.symm hne
      · exact fun hp => hp.1
    · constructor
      · exact fun hp => ⟨hp, fun h5 => absurd h5 hc⟩
      · exact fun hp => hp.1
  refine ⟨?_, ?_, ?_, ?_, ?_, ?_⟩
  · rw [husers, List.map_map]
    have : (User.id ∘ G) = User.id := funext fun u => hGid u
    rw [this]
    exact hnodup
  · intro u' hu' v' hv'
    rw [husers] at hu' hv'
    obtain ⟨u, hu, rfl⟩ := List.mem_map.mp hu'
    obtain ⟨v, hv, rfl⟩ := List.mem_map.mp hv'
    rw [hGid, hGid, hGfriends, hGfriends]
    exact hsym u hu v hv
  · intro u' hu' v' hv'
    rw [husers] at hu' hv'
    obtain ⟨u, hu, rfl⟩ := List.mem_map.mp hu'
    obtain ⟨v, hv, rfl⟩ := List.mem_map.mp hv'
    rw [hGid, hGid, hGsent, hGreq]
    have := hmirror u hu v hv
    constructor
    · rintro ⟨hs, hside⟩
      exact ⟨this.mp hs, fun hvc hus => hside hus hvc⟩
    · rintro ⟨hr, hside⟩
      exact ⟨this.mpr hr, fun hus hvc => hside hvc hus⟩
  · intro u' hu' v' hv' hsent
    rw [husers] at hu' hv'
    obtain ⟨u, hu, rfl⟩ := List.mem_map.mp hu'
    obtain ⟨v, hv, rfl⟩ := List.mem_map.mp hv'
    rw [hGid] at hsent
    rw [hGid, hGfriends]
    obtain ⟨hs, _⟩ := (hGsent u v.id).mp hsent
    exact hmutex u hu v hv hs
  · intro u' hu' v' hv' hsent hsent2
    rw [husers] at hu' hv'
    obtain ⟨u, hu, rfl⟩ := List.mem_map.mp hu'
    obtain ⟨v, hv, rfl⟩ := List.mem_map.mp hv'
    rw [hGid] at hsent
    rw [hGid] at hsent2
    obtain ⟨hs, _⟩ := (hGsent u v.id).mp hsent
    obtain ⟨hs2, _⟩ := (hGsent v u.id).mp hsent2
    exact hnodual u hu v hv hs hs2
  · intro u' hu'
    rw [husers] at hu'
    obtain ⟨u, hu, rfl⟩ := List.mem_map.mp hu'
    rw [hGid, hGfriends]
    exact hnoself u hu

/-- Everything a successful friend removal implies. -/
theorem removeFriend_ok_elim (db : DB) (cur friendId : Nat) (db' : DB)
    (hok : removeFriend db cur friendId = .ok db') :
    ∃ fu cu, findUser db friendId = some fu ∧ findUser db cur = some cu ∧
      friendId ∈ cu.friends ∧
      db' = updateUser
        (updateUser db cur (fun u =>
          { u with friends := u.friends.filter (fun f => f != friendId) }))
        friendId (fun u =>
          { u with friends := u.friends.filter (fun f => f != cur) }) := by
  unfold removeFriend at hok
  cases hfu : findUser db friendId with
  | none =>
    rw [hfu] at hok
    cases hok
  | some fu =>
  rw [hfu] at hok
  dsimp only at hok
  cases hcu : findUser db cur with
  | none =>
    rw [hcu] at hok
    cases hok
  | some cu =>
  rw [hcu] at hok
  dsimp only at hok
  by_cases hmem : friendId ∈ cu.friends
  · rw [if_pos hmem] at hok
    injection hok with hok
    exact ⟨fu, cu, rfl, rfl, hmem, hok.symm⟩
  · rw [if_neg hmem] at hok
    cases hok

/-- A successful friend removal preserves the relationship invariant. -/
theorem removeFriend_inv (db : DB) (cur friendId : Nat) (db' : DB)
    (hInv : Inv db) (hok : removeFriend db cur friendId = .ok db') :
    Inv db' := by
  obtain ⟨hnodup, hsym, hmirror, hmutex, hnodual, hnoself⟩ := hInv
  obtain ⟨fu, cu, hfu, hcu, hmem, hdb'⟩ :=
    removeFriend_ok_elim db cur friendId db' hok
  obtain ⟨hfumem, hfuid⟩ := findUser_mem db friendId fu hfu
  obtain ⟨hcumem, hcuid⟩ := findUser_mem db cur cu hcu
  have hinj := users_id_inj db hnodup
  have hne : cur ≠ friendId := by
    intro h
    apply hnoself cu hcumem
    rw [hcuid, h]
    exact hmem
  set G : User → User := fun u =>
    if u.id = cur then
      { u with friends := u.friends.filter (fun f => f != friendId) }
    else if u.id = friendId then
      { u with friends := u.friends.filter (fun f => f != cur) }
    else u with hG
  have husers : db'.users = db.users.map G := by
    rw [hdb']
    exact updateUser₂_users db cur friendId _ _ hne (fun u => rfl)
  have hGid : ∀ u, (G u).id = u.id := by
    intro u
    rw [hG]
    dsimp only
    split_ifs <;> rfl
  have hGsent : ∀ u, (G u).sentFriendRequests = u.sentFriendRequests := by
    intro u
    rw [hG]
    dsimp only
    split_ifs <;> rfl
  have hGreq : ∀ u, (G u).friendRequests = u.friendRequests := by
    intro u
    rw [hG]
    dsimp only
    split_ifs <;> rfl
  have hGfriends : ∀ u x, x ∈ (G u).friends ↔
      (x ∈ u.friends ∧ (u.id = cur → x ≠ friendId) ∧ (u.id = friendId → x ≠ cur)) := by
    intro u x
    rw [hG]
    dsimp only
    split_ifs with hc ht
    · rw [List.mem_filter]
      simp only [bne_iff_ne, ne_eq]
      constructor
      · rintro ⟨hm, hx⟩
        refine ⟨hm, fun _ => hx, fun h5 => ?_⟩
        rw [hc] at h5
        exact absurd h5 hne
      · rintro ⟨hm, hx, _⟩
        exact ⟨hm, hx hc⟩
    · rw [List.mem_filter]
      simp only [bne_iff_ne, ne_eq]
      constructor
      · rintro ⟨hm, hx⟩
        refine ⟨hm, fun h5 => absurd h5 hc, fun _ => hx⟩
      · rintro ⟨hm, _, hx⟩
        exact ⟨hm, hx ht⟩
    · constructor
      · exact fun hm => ⟨hm, fun h5 => absurd h5 hc, fun h5 => absurd h5 ht⟩
      · exact fun hp => hp.1
  have hsentIff : ∀ u x, sentTo (G u) x ↔ sentTo u x := by
    intro u x
    unfold sentTo
    rw [hGsent]
  have hreqIff : ∀ u x, reqFrom (G u) x ↔ reqFrom u x := by
    intro u x
    unfold reqFrom
    rw [hGreq]
  refine ⟨?_, ?_, ?_, ?_, ?_, ?_⟩
  · rw [husers, List.map_map]
    have : (User.id ∘ G) = User.id := funext fun u => hGid u
    rw [this]
    exact hnodup
  · intro u' hu' v' hv'
    rw [husers] at hu' hv'
    obtain ⟨u, hu, rfl⟩ := List.mem_map.mp hu'
    obtain ⟨v, hv, rfl⟩ := List.mem_map.mp hv'
    rw [hGid, hGid, hGfriends, hGfriends]
    have := hsym u hu v hv
    constructor
    · rintro ⟨hm, hs1, hs2⟩
      exact ⟨this.mp hm, fun hvc huf => hs2 huf hvc,
             fun hvf huc => hs1 huc hvf⟩
    · rintro ⟨hm, hs1, hs2⟩
      exact ⟨this.mpr hm, fun huc hvf => hs2 hvf huc,
             fun huf hvc => hs1 hvc huf⟩
  · intro u' hu' v' hv'
    rw [husers] at hu' hv'
    obtain ⟨u, hu, rfl⟩ := List.mem_map.mp hu'
    obtain ⟨v, hv, rfl⟩ := List.mem_map.mp hv'
    rw [hGid, hGid, hsentIff, hreqIff]
    exact hmirror u hu v hv
  · intro u' hu' v' hv' hsent
    rw [husers] at hu' hv'
    obtain ⟨u, hu, rfl⟩ := List.mem_map.mp hu'
    obtain ⟨v, hv, rfl⟩ := List.mem_map.mp hv'
    rw [hGid] at hsent
    rw [hGid, hGfriends]
    rw [hsentIff] at hsent
    exact fun hp => hmutex u hu v hv hsent hp.1
  · intro u' hu' v' hv' hsent hsent2
    rw [husers] at hu' hv'
    obtain ⟨u, hu, rfl⟩ := List.mem_map.mp hu'
    obtain ⟨v, hv, rfl⟩ := List.mem_map.mp hv'
    rw [hGid] at hsent
    rw [hGid] at hsent2
    rw [hsentIff] at hsent hsent2
    exact hnodual u hu v hv hsent hsent2
  · intro u' hu'
    rw [husers] at hu'
    obtain ⟨u, hu, rfl⟩ := List.mem_map.mp hu'
    rw [hGid, hGfriends]
    exact fun hp => hnoself u hu hp.1

/-- C7: every friend operation — send request, accept, decline, remove —
preserves the relationship invariant: friendship stays symmetric, a
pending request and a completed friendship stay mutually exclusive (the
invariant also carries unique ids, request mirroring, no dual pending
requests and no self-friendship, which the preservation proof needs). -/
theorem friend_ops_preserve_inv (db : DB) (op : FriendOp) (h : Inv db) :
    Inv (applyFriendOp db op) := by
  cases op with
  | send c t now =>
    unfold applyFriendOp
    dsimp only
    cases hres : sendFriendRequest db c t now with
    | ok db' => exact sendFriendRequest_inv db c t now db' h hres
    | error e => exact h
  | accept c snd =>
    unfold applyFriendOp
    dsimp only
    cases hres : acceptFriendRequest db c snd with
    | ok db' => exact acceptFriendRequest_inv db c snd db' h hres
    | error e => exact h
  | decline c snd =>
    unfold applyFriendOp
    dsimp only
    cases hres : declineFriendRequest db c snd with
    | ok db' => exact declineFriendRequest_inv db c snd db' h hres
    | error e => exact h
  | remove c f =>
    unfold applyFriendOp
    dsimp only
    cases hres : removeFriend db c f with
    | ok db' => exact removeFriend_inv db c f db' h hres
    | error e => exact h

/-- C7 witness: the invariant holds on the two-friend store and is
preserved by a concrete friend-request send from user 1 to user 3. -/
theorem friend_ops_preserve_inv_witness :
    Inv (applyFriendOp dbFriends (.send 1 3 7)) :=
  friend_ops_preserve_inv dbFriends (.send 1 3 7) (by decide)

/-- Sample user 4, with a pending incoming request from user 5. -/
def uD : User :=
  { id := 4, email := "d@x", password := "p", friends := [],
    friendRequests := [{ fromId := 5, createdAt := 1 }],
    sentFriendRequests := [] }

/-- Sample user 5, with a pending outgoing request to user 4. -/
def uE : User :=
  { id := 5, email := "e@x", password := "p", friends := [],
    friendRequests := [],
    sentFriendRequests := [{ toId := 4, createdAt := 1 }] }

/-- Sample user 6, no relationships. -/
def uF : User :=
  { id := 6, email := "f@x", password := "p", friends := [],
    friendRequests := [], sentFriendRequests := [] }

/-- A store with a pending request 5 → 4 and a fresh user 6. -/
def dbPending : DB :=
  { users := [uD, uE, uF], messages := [], nextMsgId := 0 }

/-- C6: the friend-request state machine — a self-request is rejected; a
second send of a request already pending from the same sender is
rejected; an accept with no pending request from the named sender is
rejected; and after a successful accept both users list each other as
friends and neither lists any pending request involving the other. -/
theorem friend_request_state_machine (db : DB) (A B C S now now2 : Nat)
    (cu : User) (hInv : Inv db) (hC : findUser db C = some cu) :
    (sendFriendRequest db A A now =
      .error (400, "You cannot send a friend request to yourself")) ∧
    (∀ db1, sendFriendRequest db A B now = .ok db1 →
      sendFriendRequest db1 A B now2 =
        .error (400, "Friend request already sent")) ∧
    ((∀ r ∈ cu.friendRequests, r.fromId ≠ S) →
      ∃ e, acceptFriendRequest db C S = .error e) ∧
    (∀ db1, acceptFriendRequest db C S = .ok db1 →
      ∃ cu' su', findUser db1 C = some cu' ∧ findUser db1 S = some su' ∧
        S ∈ cu'.friends ∧ C ∈ su'.friends ∧
        ¬ sentTo cu' S ∧ ¬ reqFrom cu' S ∧
        ¬ sentTo su' C ∧ ¬ reqFrom su' C) := by
  obtain ⟨hnodup, hsym, hmirror, hmutex, hnodual, hnoself⟩ := hInv
  have hinj := users_id_inj db hnodup
  refine ⟨?_, ?_, ?_, ?_⟩
  · unfold sendFriendRequest
    rw [if_pos rfl]
  · intro db1 hok
    obtain ⟨tu, cu0, h1, htu, hcu0, h2, h3, h4, husers⟩ :=
      sendFriendRequest_ok_elim db A B now db1 hok
    obtain ⟨hcu0mem, hcu0id⟩ := findUser_mem db A cu0 hcu0
    have hGid : ∀ u : User,
        ((if u.id = A then
            { u with sentFriendRequests :=
                u.sentFriendRequests ++ [{ toId := B, createdAt := now }] }
          else if u.id = B then
            { u with friendRequests :=
                u.friendRequests ++ [{ fromId := A, createdAt := now }] }
          else u) : User).id = u.id := by
      intro u
      split_ifs <;> rfl
    have hfind : ∀ i, findUser db1 i = (findUser db i).map (fun u =>
        if u.id = A then
          { u with sentFriendRequests :=
              u.sentFriendRequests ++ [{ toId := B, createdAt := now }] }
        else if u.id = B then
          { u with friendRequests :=
              u.friendRequests ++ [{ fromId := A, createdAt := now }] }
        else u) := by
      intro i
      unfold findUser
      rw [husers]
      exact find?_id_map db.users _ hGid i
    unfold sendFriendRequest
    rw [if_neg h1, hfind, htu, hfind, hcu0]
    simp only [Option.map_some']
    rw [if_pos hcu0id]
    have hB : ¬ cu0.id = B := by
      rw [hcu0id]
      exact fun hh => h1 hh.symm
    rw [if_neg ?hfr]
    case hfr =>
      dsimp only
      exact h2
    rw [if_pos ?hsent]
    case hsent =>
      dsimp only
      rw [List.any_eq_true]
      exact ⟨{ toId := B, createdAt := now }, by simp, by simp⟩
  · intro hno
    unfold acceptFriendRequest
    cases hsu : findUser db S with
    | none => exact ⟨_, rfl⟩
    | some su =>
      dsimp only
      rw [hC]
      dsimp only
      rw [if_neg ?hnone]
      case hnone =>
        rw [List.any_eq_true]
        rintro ⟨r, hr, hrS⟩
        exact hno r hr (by simpa using hrS)
      exact ⟨_, rfl⟩
  · intro db1 hok
    obtain ⟨su, cu0, hsu, hcu0, hreq, hdb'⟩ :=
      acceptFriendRequest_ok_elim db C S db1 hok
    obtain ⟨hsumem, hsuid⟩ := findUser_mem db S su hsu
    obtain ⟨hcu0mem, hcu0id⟩ := findUser_mem db C cu0 hcu0
    have hsc : sentTo su cu0.id := (hmirror su hsumem cu0 hcu0mem).mpr
      (by rw [hsuid]; exact hreq)
    have hne : C ≠ S := by
      intro h
      have hsame : su = cu0 := hinj su hsumem cu0 hcu0mem (by rw [hsuid, hcu0id, h])
      rw [hsame] at hsc
      exact hnodual cu0 hcu0mem cu0 hcu0mem hsc hsc
    have husers : db1.users = db.users.map (fun u =>
        if u.id = C then
          { u with
            friendRequests := u.friendRequests.filter (fun r => r.fromId != S)
            friends := addToSet u.friends S }
        else if u.id = S then
          { u with
            sentFriendRequests := u.sentFriendRequests.filter (fun r => r.toId != C)
            friends := addToSet u.friends C }
        else u) := by
      rw [hdb']
      exact updateUser₂_users db C S _ _ hne (fun u => rfl)
    have hGid : ∀ u : User,
        ((if u.id = C then
            { u with
              friendRequests := u.friendRequests.filter (fun r => r.fromId != S)
              friends := addToSet u.friends S }
          else if u.id = S then
            { u with
              sentFriendRequests := u.sentFriendRequests.filter (fun r => r.toId != C)
              friends := addToSet u.friends C }
          else u) : User).id = u.id := by
      intro u
      split_ifs <;> rfl
    have hfind : ∀ i, findUser db1 i = (findUser db i).map (fun u =>
        if u.id = C then
          { u with
            friendRequests := u.friendRequests.filter (fun r => r.fromId != S)
            friends := addToSet u.friends S }
        else if u.id = S then
          { u with
            sentFriendRequests := u.sentFriendRequests.filter (fun r => r.toId != C)
            friends := addToSet u.friends C }
          else u) := by
      intro i
      unfold findUser
      rw [husers]
      exact find?_id_map db.users _ hGid i
    have hSC : ¬ su.id = C := by
      rw [hsuid]
      exact fun hh => hne hh.symm
    have hfC : findUser db1 C = some
        { cu0 with
          friendRequests := cu0.friendRequests.filter (fun r => r.fromId != S)
          friends := addToSet cu0.friends S } := by
      rw [hfind, hcu0]
      simp only [Option.map_some']
      rw [if_pos hcu0id]
    have hfS : findUser db1 S = some
        { su with
          sentFriendRequests := su.sentFriendRequests.filter (fun r => r.toId != C)
          friends := addToSet su.friends C } := by
      rw [hfind, hsu]
      simp only [Option.map_some']
      rw [if_neg hSC, if_pos hsuid]
    refine ⟨_, _, hfC, hfS, ?_, ?_, ?_, ?_, ?_, ?_⟩
    · show S ∈ addToSet cu0.friends S
      rw [mem_addToSet]
      exact Or.inr rfl
    · show C ∈ addToSet su.friends C
      rw [mem_addToSet]
      exact Or.inr rfl
    · intro hs
      have hs' : sentTo cu0 su.id := by
        rw [hsuid]
        exact hs
      exact hnodual su hsumem cu0 hcu0mem hsc hs'
    · intro hr
      have hr' : ∃ r ∈ cu0.friendRequests.filter (fun r => r.fromId != S),
          r.fromId = S := hr
      rw [exists_fromId_filter] at hr'
      exact hr'.2 rfl
    · intro hs
      have hs' : ∃ r ∈ su.sentFriendRequests.filter (fun r => r.toId != C),
          r.toId = C := hs
      rw [exists_toId_filter] at hs'
      exact hs'.2 rfl
    · intro hr
      have hr' : reqFrom su cu0.id := by
        rw [hcu0id]
        exact hr
      exact (hnodual su hsumem cu0 hcu0mem hsc)
        ((hmirror cu0 hcu0mem su hsumem).mpr hr')

/-- C6 witness: in the pending-request store, user 6 self-request is
rejected, the 6 → 4 double-send behaviour holds, and accepting the
pending 5 → 4 request by user 4 yields mutual friendship and no pending
requests. -/
theorem friend_request_state_machine_witness :
    (sendFriendRequest dbPending 6 6 7 =
      .error (400, "You cannot send a friend request to yourself")) ∧
    (∀ db1, sendFriendRequest dbPending 6 4 7 = .ok db1 →
      sendFriendRequest db1 6 4 9 =
        .error (400, "Friend request already sent")) ∧
    ((∀ r ∈ uD.friendRequests, r.fromId ≠ 5) →
      ∃ e, acceptFriendRequest dbPending 4 5 = .error e) ∧
    (∀ db1, acceptFriendRequest dbPending 4 5 = .ok db1 →
      ∃ cu' su', findUser db1 4 = some cu' ∧ findUser db1 5 = some su' ∧
        5 ∈ cu'.friends ∧ 4 ∈ su'.friends ∧
        ¬ sentTo cu' 5 ∧ ¬ reqFrom cu' 5 ∧
        ¬ sentTo su' 4 ∧ ¬ reqFrom su' 4) :=
  friend_request_state_machine dbPending 6 4 4 5 7 9 uD (by decide) rfl

/-! ## C2: conversation aggregation -/

theorem firstKeys_aux_mem (l : List Nat) : ∀ (acc : List Nat) (k : Nat),
    (k ∈ l.foldl (fun acc k => if k ∈ acc then acc else acc ++ [k]) acc) ↔
      (k ∈ acc ∨ k ∈ l) := by
  induction l with
  | nil => simp
  | cons a t ih =>
    intro acc k
    simp only [List.foldl_cons]
    rw [ih]
    by_cases ha : a ∈ acc
    · rw [if_pos ha]
      constructor
      · rintro (h | h)
        · exact Or.inl h
        · exact Or.inr (List.mem_cons_of_mem a h)
      · rintro (h | h)
        · exact Or.inl h
        · rcases List.mem_cons.mp h with rfl | h
          · exact Or.inl ha
          · exact Or.inr h
    · rw [if_neg ha]
      constructor
      · rintro (h | h)
        · rcases List.mem_append.mp h with h | h
          · exact Or.inl h
          · rcases List.mem_singleton.mp h with rfl
            exact Or.inr (by simp)
        · exact Or.inr (List.mem_cons_of_mem a h)
      · rintro (h | h)
        · exact Or.inl (List.mem_append.mpr (Or.inl h))
        · rcases List.mem_cons.mp h with rfl | h
          · exact Or.inl (List.mem_append.mpr (Or.inr (List.mem_singleton.mpr rfl)))
          · exact Or.inr h

theorem firstKeys_mem (l : List Nat) (k : Nat) : k ∈ firstKeys l ↔ k ∈ l := by
  unfold firstKeys
  rw [firstKeys_aux_mem]
  simp

theorem firstKeys_aux_nodup (l : List Nat) : ∀ acc : List Nat, acc.Nodup →
    (l.foldl (fun acc k => if k ∈ acc then acc else acc ++ [k]) acc).Nodup := by
  induction l with
  | nil =>
    intro acc hacc
    exact hacc
  | cons a t ih =>
    intro acc hacc
    simp only [List.foldl_cons]
    by_cases ha : a ∈ acc
    · rw [if_pos ha]
      exact ih acc hacc
    · rw [if_neg ha]
      apply ih
      simp [List.nodup_append, hacc, ha]

theorem firstKeys_nodup (l : List Nat) : (firstKeys l).Nodup :=
  firstKeys_aux_nodup l [] (by simp)

/-- Rearrangement of the unread-count predicate. -/
theorem unread_pred_rearrange (a b c d : Bool) :
    (((c && d) && b) && a) = (a && (b && (c && d))) := by
  cases a <;> cases b <;> cases c <;> cases d <;> rfl

theorem map_otherId_filterMap (g : Nat → Option ConvRow) (keys : List Nat)
    (h : ∀ k ∈ keys, ∃ row, g k = some row ∧ row.otherId = k) :
    (keys.filterMap g).map ConvRow.otherId = keys := by
  induction keys with
  | nil => rfl
  | cons a t ih =>
    obtain ⟨row, hg, hid⟩ := h a (List.mem_cons_self a t)
    rw [List.filterMap_cons, hg]
    dsimp only
    rw [List.map_cons, hid, ih (fun k hk => h k (List.mem_cons_of_mem a hk))]

/-- What a produced group row satisfies: its key, that its last message
heads the key's sorted stream (hence has maximal timestamp in the
group), and its unread count. -/
theorem convRowFor_spec (msgs : List Msg) (u k : Nat) (row : ConvRow)
    (hg : convRowFor msgs u k = some row) :
    row.otherId = k ∧
    row.lastMessage ∈ sortedMsgs msgs u ∧
    (otherUser u row.lastMessage == k) = true ∧
    (∀ m ∈ sortedMsgs msgs u, (otherUser u m == k) = true →
      m.createdAt ≤ row.lastMessage.createdAt) ∧
    row.unreadCount = (((sortedMsgs msgs u).filter (fun m => otherUser u m == k)).filter
      (fun x => x.receiver == u && !x.isRead)).length := by
  unfold convRowFor at hg
  cases hgrp : (sortedMsgs msgs u).filter (fun m => otherUser u m == k) with
  | nil =>
    rw [hgrp] at hg
    cases hg
  | cons m0 rest =>
    rw [hgrp] at hg
    injection hg with hg
    subst hg
    have hm0 : m0 ∈ (sortedMsgs msgs u).filter (fun m => otherUser u m == k) := by
      rw [hgrp]
      exact List.mem_cons_self m0 rest
    obtain ⟨hm0s, hm0k⟩ := List.mem_filter.mp hm0
    refine ⟨rfl, hm0s, hm0k, ?_, ?_⟩
    · intro m hm hpk
      have hmgrp : m ∈ m0 :: rest := by
        rw [← hgrp]
        exact List.mem_filter.mpr ⟨hm, hpk⟩
      rcases List.mem_cons.mp hmgrp with rfl | hmr
      · exact Nat.le_refl _
      · have hpair : List.Pairwise byNewest (m0 :: rest) := by
          rw [← hgrp]
          exact List.Pairwise.filter _
            (List.sorted_insertionSort byNewest (relMsgs msgs u))
        exact List.rel_of_pairwise_cons hpair hmr
    · rfl

/-- With unique user ids, an id matches at most one users document. -/
theorem filter_id_single (users : List User)
    (hids : (users.map User.id).Nodup) (k : Nat) :
    users.filter (fun v => v.id == k) = [] ∨
    ∃ v, users.filter (fun v => v.id == k) = [v] := by
  cases h : users.filter (fun v => v.id == k) with
  | nil => exact Or.inl rfl
  | cons v t =>
    right
    refine ⟨v, ?_⟩
    cases t with
    | nil => rfl
    | cons w t2 =>
      exfalso
      have hsub : (users.filter (fun v => v.id == k)).Sublist users :=
        List.filter_sublist users
      have hnodup2 : ((users.filter (fun v => v.id == k)).map User.id).Nodup :=
        hids.sublist (hsub.map User.id)
      rw [h] at hnodup2
      have hvmem : v ∈ users.filter (fun v => v.id == k) := by
        rw [h]
        exact List.mem_cons_self _ _
      have hwmem : w ∈ users.filter (fun v => v.id == k) := by
        rw [h]
        exact List.mem_cons_of_mem _ (List.mem_cons_self _ _)
      have hv : v.id = k := by simpa using (List.mem_filter.mp hvmem).2
      have hw : w.id = k := by simpa using (List.mem_filter.mp hwmem).2
      rw [List.map_cons, List.map_cons, List.nodup_cons] at hnodup2
      exact hnodup2.1 (List.mem_cons.mpr (Or.inl (by rw [hv, hw])))

/-- A flatMap whose function returns `[]` or the singleton of its
argument produces a sublist. -/
theorem flatMap_single_sublist {α : Type} (l : List α) (f : α → List α)
    (h : ∀ a ∈ l, f a = [] ∨ f a = [a]) : (l.flatMap f).Sublist l := by
  induction l with
  | nil => simp
  | cons a t ih =>
    rw [List.flatMap_cons]
    rcases h a (List.mem_cons_self a t) with ha | ha
    · rw [ha, List.nil_append]
      exact (ih (fun x hx => h x (List.mem_cons_of_mem a hx))).cons a
    · rw [ha]
      exact (ih (fun x hx => h x (List.mem_cons_of_mem a hx))).cons₂ a

/-- Membership through the `$lookup`/`$unwind` stage: a row survives
exactly when its counterparty has a users document. -/
theorem mem_lookupUnwind (users : List User) (rows : List ConvRow)
    (row : ConvRow) :
    (row ∈ rows.flatMap (fun row =>
      (users.filter (fun v => v.id == row.otherId)).map (fun _ => row))) ↔
    (row ∈ rows ∧ ∃ v ∈ users, v.id = row.otherId) := by
  rw [List.mem_flatMap]
  constructor
  · rintro ⟨r, hr, hmem⟩
    obtain ⟨v, hv, hveq⟩ := List.mem_map.mp hmem
    obtain ⟨hvu, hvid⟩ := List.mem_filter.mp hv
    subst hveq
    exact ⟨hr, v, hvu, by simpa using hvid⟩
  · rintro ⟨hrow, v, hvu, hvid⟩
    exact ⟨row, hrow,
           List.mem_map.mpr ⟨v, List.mem_filter.mpr ⟨hvu, by simp [hvid]⟩, rfl⟩⟩

/-- A store with one user (id 1) and one message to the nonexistent
receiver id 99 — reachable through the ungated real-time send, which
checks neither friendship nor receiver existence. -/
def dbGhost : DB :=
  { users := [uA],
    messages := [{ id := 0, sender := 1, receiver := 99, content := "hi",
                   messageType := "text", fileUrl := "", isRead := false,
                   readAt := none, createdAt := 1 }],
    nextMsgId := 1 }

/-- C2 counterexample: id 99 is a distinct counterparty among user 1's
messages, yet the conversations query returns no row at all for user 1
— the `$unwind` of the user lookup drops the row because no users
document has id 99, so the query does not return one row per distinct
counterparty. -/
theorem conversations_ghost_counterexample :
    (∃ m, m ∈ dbGhost.messages ∧ involvesUser 1 m = true ∧
      otherUser 1 m = 99) ∧
    conversationsAgg dbGhost 1 = [] ∧
    ¬ 99 ∈ (conversationsAgg dbGhost 1).map ConvRow.otherId := by
  decide

/-- C2 (amended): with unique user ids, the conversations query returns
exactly one row per distinct counterparty among the user's messages
*that has a users document* (the `$unwind` of the user lookup drops a
counterparty id with none — reachable via the ungated real-time send);
each row's last message is a message of that pair bounding the pair's
timestamps — with pairwise-distinct creation timestamps (timestamps are
assigned at creation) it is the strictly most recent one, so for
messages at t1 < t2 < t3 between a pair interleaved with a third party
the row shows the t3 message; and each row's unread count is the number
of the pair's messages addressed to the user with the unread flag
set. -/
theorem conversations_spec (db : DB) (u : Nat)
    (hids : (db.users.map User.id).Nodup)
    (hd : List.Pairwise (fun a b => a.createdAt ≠ b.createdAt)
      (db.messages.filter (involvesUser u))) :
    ((conversationsAgg db u).map ConvRow.otherId).Nodup ∧
    (∀ k, k ∈ (conversationsAgg db u).map ConvRow.otherId ↔
      ((∃ m, m ∈ db.messages ∧ involvesUser u m = true ∧ otherUser u m = k) ∧
       (∃ v, v ∈ db.users ∧ v.id = k))) ∧
    (∀ row ∈ conversationsAgg db u,
      (row.lastMessage ∈ db.messages ∧ involvesUser u row.lastMessage = true ∧
       otherUser u row.lastMessage = row.otherId) ∧
      (∀ m, m ∈ db.messages → involvesUser u m = true →
          otherUser u m = row.otherId →
        m.createdAt ≤ row.lastMessage.createdAt ∧
        (m ≠ row.lastMessage → m.createdAt < row.lastMessage.createdAt)) ∧
      row.unreadCount = (db.messages.filter (fun m =>
        involvesUser u m && ((otherUser u m == row.otherId) &&
          (m.receiver == u && !m.isRead)))).length) := by
  have hperm : (sortedMsgs db.messages u).Perm (relMsgs db.messages u) :=
    List.perm_insertionSort byNewest (relMsgs db.messages u)
  have hmemchain : ∀ m : Msg, m ∈ sortedMsgs db.messages u ↔
      (m ∈ db.messages ∧ involvesUser u m = true) := by
    intro m
    rw [hperm.mem_iff]
    exact List.mem_filter
  have hkeys : ∀ k ∈ convKeys db.messages u,
      ∃ row, convRowFor db.messages u k = some row ∧ row.otherId = k := by
    intro k hk
    unfold convKeys at hk
    rw [firstKeys_mem] at hk
    obtain ⟨m, hm, hmk⟩ := List.mem_map.mp hk
    unfold convRowFor
    cases hgrp : (sortedMsgs db.messages u).filter (fun m => otherUser u m == k) with
    | nil =>
      exfalso
      have hmem : m ∈ (sortedMsgs db.messages u).filter
          (fun m => otherUser u m == k) :=
        List.mem_filter.mpr ⟨hm, by simp [hmk]⟩
      rw [hgrp] at hmem
      cases hmem
    | cons m0 rest =>
      exact ⟨_, rfl, rfl⟩
  have hrowsperm : (conversationsAgg db u).Perm
      (((convKeys db.messages u).filterMap (convRowFor db.messages u)).flatMap
        (fun row => (db.users.filter (fun v => v.id == row.otherId)).map
          (fun _ => row))) := by
    unfold conversationsAgg
    exact List.perm_insertionSort rowByNewest _
  have hmapkeys : (((convKeys db.messages u).filterMap
      (convRowFor db.messages u)).map ConvRow.otherId) = convKeys db.messages u :=
    map_otherId_filterMap (convRowFor db.messages u) (convKeys db.messages u) hkeys
  have hsingle : ∀ row ∈ (convKeys db.messages u).filterMap
      (convRowFor db.messages u),
      ((db.users.filter (fun v => v.id == row.otherId)).map (fun _ => row)) = []
      ∨ ((db.users.filter (fun v => v.id == row.otherId)).map (fun _ => row))
        = [row] := by
    intro row _
    rcases filter_id_single db.users hids row.otherId with h | ⟨v, h⟩
    · left
      rw [h]
      rfl
    · right
      rw [h]
      rfl
  have hsub : (((convKeys db.messages u).filterMap
      (convRowFor db.messages u)).flatMap
        (fun row => (db.users.filter (fun v => v.id == row.otherId)).map
          (fun _ => row))).Sublist
      ((convKeys db.messages u).filterMap (convRowFor db.messages u)) :=
    flatMap_single_sublist _ _ hsingle
  refine ⟨?_, ?_, ?_⟩
  · rw [(hrowsperm.map ConvRow.otherId).nodup_iff]
    have hnodupRows : ((((convKeys db.messages u).filterMap
        (convRowFor db.messages u))).map ConvRow.otherId).Nodup := by
      rw [hmapkeys]
      exact firstKeys_nodup _
    exact hnodupRows.sublist (hsub.map ConvRow.otherId)
  · intro k
    rw [(hrowsperm.map ConvRow.otherId).mem_iff]
    constructor
    · intro hk
      obtain ⟨row, hrow2, hrk⟩ := List.mem_map.mp hk
      obtain ⟨hrow, v, hvu, hvid⟩ :=
        (mem_lookupUnwind db.users _ row).mp hrow2
      obtain ⟨k0, hk0, hg⟩ := List.mem_filterMap.mp hrow
      have hidr := (convRowFor_spec db.messages u k0 row hg).1
      refine ⟨?_, v, hvu, by rw [hvid, hrk]⟩
      have hkk : k ∈ convKeys db.messages u := by
        rw [← hrk, hidr]
        exact hk0
      unfold convKeys at hkk
      rw [firstKeys_mem] at hkk
      obtain ⟨m, hm, hmk⟩ := List.mem_map.mp hkk
      obtain ⟨hmm, hmi⟩ := (hmemchain m).mp hm
      exact ⟨m, hmm, hmi, hmk⟩
    · rintro ⟨⟨m, hmm, hmi, hmk⟩, v, hvu, hvid⟩
      have hkk : k ∈ convKeys db.messages u := by
        unfold convKeys
        rw [firstKeys_mem]
        exact List.mem_map.mpr ⟨m, (hmemchain m).mpr ⟨hmm, hmi⟩, hmk⟩
      obtain ⟨row, hg, hrk⟩ := hkeys k hkk
      have hrow : row ∈ (convKeys db.messages u).filterMap
          (convRowFor db.messages u) :=
        List.mem_filterMap.mpr ⟨k, hkk, hg⟩
      have hrow2 := (mem_lookupUnwind db.users _ row).mpr
        ⟨hrow, v, hvu, by rw [hvid, hrk]⟩
      exact List.mem_map.mpr ⟨row, hrow2, hrk⟩
  · intro row hrowRes
    have hrow2 := hrowsperm.mem_iff.mp hrowRes
    obtain ⟨hrow, _, _, _⟩ := (mem_lookupUnwind db.users _ row).mp hrow2
    obtain ⟨k, hk, hg⟩ := List.mem_filterMap.mp hrow
    obtain ⟨hid, hlm, hlmk, hmax, hcount⟩ := convRowFor_spec db.messages u k row hg
    subst hid
    obtain ⟨hlmm, hlmi⟩ := (hmemchain row.lastMessage).mp hlm
    refine ⟨⟨hlmm, hlmi, by simpa using hlmk⟩, ?_, ?_⟩
    · intro m hmm hmi hmk
      have hms : m ∈ sortedMsgs db.messages u := (hmemchain m).mpr ⟨hmm, hmi⟩
      have hle : m.createdAt ≤ row.lastMessage.createdAt :=
        hmax m hms (by simp [hmk])
      refine ⟨hle, fun hne => ?_⟩
      have hmr : m ∈ db.messages.filter (involvesUser u) :=
        List.mem_filter.mpr ⟨hmm, hmi⟩
      have hlr : row.lastMessage ∈ db.messages.filter (involvesUser u) :=
        List.mem_filter.mpr ⟨hlmm, hlmi⟩
      have hsymm : Symmetric (fun a b : Msg => a.createdAt ≠ b.createdAt) :=
        fun a b h => h.symm
      have hne2 := hd.forall hsymm hmr hlr hne
      exact Nat.lt_of_le_of_ne hle hne2
    · rw [hcount]
      have hlen : (((sortedMsgs db.messages u).filter
            (fun m => otherUser u m == row.otherId)).filter
            (fun x => x.receiver == u && !x.isRead)).length =
          (((relMsgs db.messages u).filter
            (fun m => otherUser u m == row.otherId)).filter
            (fun x => x.receiver == u && !x.isRead)).length :=
        ((hperm.filter _).filter _).length_eq
      rw [hlen]
      unfold relMsgs
      rw [List.filter_filter, List.filter_filter]
      congr 1
      apply List.filter_congr
      intro m _
      exact unread_pred_rearrange (involvesUser u m)
        (otherUser u m == row.otherId) (m.receiver == u) (!m.isRead)

/-- Sample message stream for the conversation witness: pair (1,2) at
times 1, 3, 5 interleaved with third-party traffic involving user 3 at
times 2, 4; the unread messages addressed to user 1 are the ones at
times 3 (from 2) and 4 (from 3). -/
def msgsSample : List Msg :=
  [{ id := 0, sender := 1, receiver := 2, content := "a", messageType := "text",
     fileUrl := "", isRead := true, readAt := some 2, createdAt := 1 },
   { id := 1, sender := 1, receiver := 3, content := "b", messageType := "text",
     fileUrl := "", isRead := true, readAt := some 3, createdAt := 2 },
   { id := 2, sender := 2, receiver := 1, content := "c", messageType := "text",
     fileUrl := "", isRead := false, readAt := none, createdAt := 3 },
   { id := 3, sender := 3, receiver := 1, content := "d", messageType := "text",
     fileUrl := "", isRead := false, readAt := none, createdAt := 4 },
   { id := 4, sender := 1, receiver := 2, content := "e", messageType := "text",
     fileUrl := "", isRead := true, readAt := some 6, createdAt := 5 }]

/-- The three-user store carrying the sample message stream. -/
def dbSample : DB :=
  { users := [uA, uB, uC], messages := msgsSample, nextMsgId := 5 }

/-- C2 witness: the aggregation property evaluated on the sample store
for user 1. -/
theorem conversations_spec_witness :
    ((conversationsAgg dbSample 1).map ConvRow.otherId).Nodup ∧
    (∀ k, k ∈ (conversationsAgg dbSample 1).map ConvRow.otherId ↔
      ((∃ m, m ∈ dbSample.messages ∧ involvesUser 1 m = true ∧
         otherUser 1 m = k) ∧
       (∃ v, v ∈ dbSample.users ∧ v.id = k))) ∧
    (∀ row ∈ conversationsAgg dbSample 1,
      (row.lastMessage ∈ dbSample.messages ∧
       involvesUser 1 row.lastMessage = true ∧
       otherUser 1 row.lastMessage = row.otherId) ∧
      (∀ m, m ∈ dbSample.messages → involvesUser 1 m = true →
          otherUser 1 m = row.otherId →
        m.createdAt ≤ row.lastMessage.createdAt ∧
        (m ≠ row.lastMessage → m.createdAt < row.lastMessage.createdAt)) ∧
      row.unreadCount = (dbSample.messages.filter (fun m =>
        involvesUser 1 m && ((otherUser 1 m == row.otherId) &&
          (m.receiver == 1 && !m.isRead)))).length) :=
  conversations_spec dbSample 1 (by decide) (by decide)

end SnapTalk
